import Mathlib

/-!
# Verification of the InsightZen dialer core

A shallow embedding of `kobo/apps/insightzen_core` (models.py, views.py,
signals.py): the quota model, sample pool, reservation engine, assignment
lifecycle and interview coupling, together with proofs about the claims of
the specification.

Conventions of the embedding:
* machine time is an abstract integer clock (`Int`), passed to each
  operation the way `timezone.now()` is read by the source;
* database rows are Lean structures, tables are lists, and the row-update
  queries (`.filter(pk=...).update(...)`) become `List.map` on the table;
* Python `None` becomes `Option`, JSON scalars become `Scalar`;
* a Django `transaction.atomic` block that can raise becomes an
  `Except`-valued body whose wrapper restores the input state on error
  (rollback) and keeps the new state on success;
* float weights are embedded as rationals, and the `float('inf')` sentinel
  used in capacity arithmetic becomes `⊤ : WithTop ℚ`.
-/

namespace Insightzen

/-- JSON-like scalar values stored in selectors and sample attributes. -/
inductive Scalar where
  | str (s : String)
  | int (n : Int)
  | boolean (b : Bool)
  | null
deriving DecidableEq, Repr

/-- Python `str()` of a scalar, used by the pool builder on age bands. -/
def Scalar.pyStr : Scalar → String
  | .str s => s
  | .int n => toString n
  | .boolean b => if b then "True" else "False"
  | .null => "None"

/-- A selector value: a scalar, or a list of scalars.  (Nested lists inside a
selector list cannot be represented; the source only ever consumes flat
lists for the promoted keys.) -/
inductive SelVal where
  | scalar (v : Scalar)
  | list (vs : List Scalar)
deriving DecidableEq, Repr

/-- A selector: the JSON object `{key: scalar|list}` of a quota cell,
embedded as an association list. -/
abbrev Selector := List (String × SelVal)

/-- `selector.get(key)`: the first binding of `key`, if any. -/
def selGet (sel : Selector) (k : String) : Option SelVal :=
  (sel.find? (fun kv => kv.1 = k)).map (·.2)

/-- Python truthiness of an optional selector value (absent, `None`, `0`,
`''`, `[]` and `False` are falsy). -/
def selValTruthy : Option SelVal → Bool
  | none => false
  | some (.scalar .null) => false
  | some (.scalar (.int n)) => n ≠ 0
  | some (.scalar (.str s)) => s ≠ ""
  | some (.scalar (.boolean b)) => b
  | some (.list vs) => !vs.isEmpty

/-- Overflow policy of a quota scheme. -/
inductive Policy where
  | strict
  | soft
  | weighted
deriving DecidableEq, Repr

/-- A `QuotaCell` row.  `target` and `soft_cap` are nullable unsigned
columns; the three counters are mutated through delta updates
(`F('x') + 1`), embedded as integers. -/
structure Cell where
  id : Nat
  schemeId : Nat
  selector : Selector
  target : Option Nat
  softCap : Option Nat
  weight : Rat
  achieved : Int
  inProgress : Int
  reserved : Int
deriving DecidableEq, Repr

/-- `QuotaCell.capacity_limit`.  Returns `none` (unlimited) exactly when
`target is None`; a truthy `soft_cap` (set and nonzero) overrides the
target under the `soft` and `weighted` policies. -/
def Cell.capacity_limit (c : Cell) (policy : Policy) : Option Nat :=
  match c.target with
  | none => none
  | some t =>
    match policy, c.softCap with
    | .soft, some s => if s ≠ 0 then some s else some t
    | .weighted, some s => if s ≠ 0 then some s else some t
    | _, _ => some t

/-- `QuotaCell.remaining_slots`: `max(limit − (achieved + in_progress), 0)`,
`none` when the limit is unlimited. -/
def Cell.remaining_slots (c : Cell) (policy : Policy) : Option Int :=
  match c.capacity_limit policy with
  | none => none
  | some limit => some (max ((limit : Int) - (c.achieved + c.inProgress)) 0)

/-- `QuotaCell.has_capacity`: unlimited, or strictly positive remainder. -/
def Cell.has_capacity (c : Cell) (policy : Policy) : Bool :=
  match c.remaining_slots policy with
  | none => true
  | some r => 0 < r

/-- `QuotaCell.weighted_score`: `weight × remaining`, `∞` when unlimited. -/
def Cell.weighted_score (c : Cell) (policy : Policy) : WithTop Rat :=
  match c.remaining_slots policy with
  | none => ⊤
  | some r => ((c.weight * (r : Rat) : Rat) : WithTop Rat)

/-! ## Sample contacts -/

/-- Status of a `SampleContact` row. -/
inductive SStatus where
  | available
  | claimed
  | completed
  | blocked
deriving DecidableEq, Repr

/-- A `SampleContact` row.  The four promoted demographic columns are
nullable strings, embedded as optional scalars so that they can be compared
with selector values the way Python compares them. -/
structure Sample where
  id : Nat
  projectId : Nat
  cellId : Option Nat
  phoneId : Option Int
  personId : Option Int
  phoneNumber : String
  gender : Option Scalar
  ageBand : Option Scalar
  provinceCode : Option Scalar
  cityCode : Option Scalar
  attributes : List (String × Scalar)
  isActive : Bool
  status : SStatus
  attemptCount : Int
  lastAttemptAt : Option Int
  interviewerId : Option Nat
  usedAt : Option Int
deriving DecidableEq, Repr

/-- `attributes.get(key)`: `none` both for a missing key and for a key
bound to JSON `null`, matching Python where both read back as `None`. -/
def lookupAttr (attrs : List (String × Scalar)) (k : String) : Option Scalar :=
  match (attrs.find? (fun kv => kv.1 = k)).map (fun kv => kv.2) with
  | some Scalar.null => none
  | v => v

/-- The attribute the selector key refers to: a promoted column for the
four demographic keys, `attributes[key]` otherwise. -/
def Sample.attrValue (s : Sample) (k : String) : Option Scalar :=
  if k = "gender" then s.gender
  else if k = "age_band" then s.ageBand
  else if k = "province_code" then s.provinceCode
  else if k = "city_code" then s.cityCode
  else lookupAttr s.attributes k

/-- One comparison step of `matches_selector`: membership when the
expectation is a list, equality otherwise. -/
def scalarMatches (actual : Scalar) (expected : SelVal) : Bool :=
  match expected with
  | .list vs => vs.contains actual
  | .scalar v => actual = v

/-- `SampleContact.matches_selector`: every selector key must resolve to a
non-`None` attribute that equals the expected scalar or belongs to the
expected list; the empty selector matches everything. -/
def Sample.matches_selector (s : Sample) (sel : Selector) : Bool :=
  sel.all (fun kv =>
    match s.attrValue kv.1 with
    | none => false
    | some actual => scalarMatches actual kv.2)

/-! ## Schemes, assignments, interviews, the database state -/

/-- Status of a `QuotaScheme`. -/
inductive SchemeStatus where
  | draft
  | published
  | archived
deriving DecidableEq, Repr

/-- A `QuotaScheme` row (the fields the reservation engine reads). -/
structure Scheme where
  id : Nat
  projectId : Nat
  status : SchemeStatus
  overflowPolicy : Policy
  priority : Int
  isDefault : Bool
  publishedAt : Option Int
deriving DecidableEq, Repr

/-- Status of a `DialerAssignment`. -/
inductive AStatus where
  | reserved
  | completed
  | failed
  | expired
  | cancelled
deriving DecidableEq, Repr

/-- The four terminal assignment statuses. -/
def AStatus.terminal : AStatus → Bool
  | .reserved => false
  | _ => true

/-- A `DialerAssignment` row. -/
structure Assignment where
  id : Nat
  projectId : Nat
  schemeId : Nat
  cellId : Nat
  interviewerId : Nat
  sampleId : Nat
  status : AStatus
  reservedAt : Int
  expiresAt : Int
  completedAt : Option Int
  outcomeCode : Option String
deriving DecidableEq, Repr

/-- Status of an `Interview`. -/
inductive IStatus where
  | notStarted
  | inProgress
  | completed
deriving DecidableEq, Repr

/-- An `Interview` row, one-to-one with an assignment. -/
structure Interview where
  assignmentId : Nat
  startForm : Option Int
  endForm : Option Int
  status : IStatus
  outcomeCode : Option String
deriving DecidableEq, Repr

/-- The relational state the dialer core mutates.  `dnc` is the set of
`DoNotContactEntry.msisdn` values; `nextAssignmentId` models the primary
key sequence for assignments. -/
structure DB where
  schemes : List Scheme
  cells : List Cell
  samples : List Sample
  assignments : List Assignment
  interviews : List Interview
  dnc : List String
  nextAssignmentId : Nat
deriving DecidableEq, Repr

/-- `QuotaCell.objects.filter(pk=pk).update(...)` as a table map. -/
def updateCellRows (db : DB) (pk : Nat) (f : Cell → Cell) : DB :=
  { db with cells := db.cells.map (fun c => if c.id = pk then f c else c) }

/-- `SampleContact.objects.filter(pk=pk).update(...)` as a table map. -/
def updateSampleRows (db : DB) (pk : Nat) (f : Sample → Sample) : DB :=
  { db with samples := db.samples.map (fun s => if s.id = pk then f s else s) }

/-- Saving one assignment row back by primary key. -/
def updateAssignmentRows (db : DB) (pk : Nat) (f : Assignment → Assignment) : DB :=
  { db with assignments := db.assignments.map (fun a => if a.id = pk then f a else a) }

/-- `QuotaCell.increment_in_progress`: atomic `in_progress += 1,
reserved += 1` on the row. -/
def increment_in_progress (db : DB) (pk : Nat) : DB :=
  updateCellRows db pk (fun c =>
    { c with inProgress := c.inProgress + 1, reserved := c.reserved + 1 })

/-- `QuotaCell.decrement_in_progress`: atomic `in_progress −= 1,
reserved −= 1`, plus `achieved += 1` when the transition completed. -/
def decrement_in_progress (db : DB) (pk : Nat) (completed : Bool) : DB :=
  updateCellRows db pk (fun c =>
    { c with inProgress := c.inProgress - 1,
             reserved := c.reserved - 1,
             achieved := if completed then c.achieved + 1 else c.achieved })

/-- `SampleContact.mark_available`: back to `available`, interviewer cleared. -/
def sample_mark_available (db : DB) (pk : Nat) : DB :=
  updateSampleRows db pk (fun s => { s with status := .available, interviewerId := none })

/-- `SampleContact.mark_completed`. -/
def sample_mark_completed (db : DB) (pk : Nat) : DB :=
  updateSampleRows db pk (fun s => { s with status := .completed })

/-- `Interview.objects.filter(assignment=...).delete()`. -/
def interviewDelete (db : DB) (assignmentId : Nat) : DB :=
  { db with interviews := db.interviews.filter (fun iv => iv.assignmentId ≠ assignmentId) }

/-- `Interview.objects.update_or_create(assignment=..., defaults=...)`
specialised to the completed-interview defaults written by
`DialerAssignment.mark_completed`. -/
def interviewUpsertCompleted (db : DB) (assignmentId : Nat)
    (startF endF : Option Int) (outcome : Option String) : DB :=
  if db.interviews.any (fun iv => iv.assignmentId = assignmentId) then
    { db with interviews := db.interviews.map (fun iv =>
        if iv.assignmentId = assignmentId then
          { iv with startForm := startF, endForm := endF,
                    status := .completed, outcomeCode := outcome }
        else iv) }
  else
    { db with interviews := db.interviews ++
        [{ assignmentId := assignmentId, startForm := startF, endForm := endF,
           status := .completed, outcomeCode := outcome }] }

/-! ## Assignment lifecycle (models.py `DialerAssignment.mark_*`) -/

/-- Python truthiness of the optional `outcome_code` argument: `None` and
the empty string leave the stored code unchanged. -/
def strTruthy : Option String → Bool
  | none => false
  | some s => s ≠ ""

/-- Fetching one assignment row by primary key. -/
def findAssignment (db : DB) (pk : Nat) : Option Assignment :=
  db.assignments.find? (fun a => a.id = pk)

/-- `DialerAssignment.mark_completed`: the counter delta is guarded by
`status == reserved`, but the status, `completed_at`, outcome, sample and
interview writes are unconditional. -/
def mark_completed (db : DB) (pk : Nat) (outcome : Option String) (now : Int) : DB :=
  match findAssignment db pk with
  | none => db
  | some a =>
    let db1 := if a.status = .reserved then decrement_in_progress db a.cellId true else db
    let newOutcome := if strTruthy outcome then outcome else a.outcomeCode
    let db2 := updateAssignmentRows db1 pk (fun x =>
      { x with status := .completed, completedAt := some now, outcomeCode := newOutcome })
    let db3 := sample_mark_completed db2 a.sampleId
    interviewUpsertCompleted db3 pk (some a.reservedAt) (some now) newOutcome

/-- `DialerAssignment.mark_failed`. -/
def mark_failed (db : DB) (pk : Nat) (outcome : Option String) (now : Int) : DB :=
  match findAssignment db pk with
  | none => db
  | some a =>
    let db1 := if a.status = .reserved then decrement_in_progress db a.cellId false else db
    let newOutcome := if strTruthy outcome then outcome else a.outcomeCode
    let db2 := updateAssignmentRows db1 pk (fun x =>
      { x with status := .failed, completedAt := some now, outcomeCode := newOutcome })
    let db3 := sample_mark_available db2 a.sampleId
    interviewDelete db3 pk

/-- `DialerAssignment.mark_cancelled`. -/
def mark_cancelled (db : DB) (pk : Nat) (now : Int) : DB :=
  match findAssignment db pk with
  | none => db
  | some a =>
    let db1 := if a.status = .reserved then decrement_in_progress db a.cellId false else db
    let db2 := updateAssignmentRows db1 pk (fun x =>
      { x with status := .cancelled, completedAt := some now })
    let db3 := sample_mark_available db2 a.sampleId
    interviewDelete db3 pk

/-- `DialerAssignment.mark_expired` (saves only the status field; it does
not stamp `completed_at`). -/
def mark_expired (db : DB) (pk : Nat) : DB :=
  match findAssignment db pk with
  | none => db
  | some a =>
    let db1 := if a.status = .reserved then decrement_in_progress db a.cellId false else db
    let db2 := updateAssignmentRows db1 pk (fun x => { x with status := .expired })
    let db3 := sample_mark_available db2 a.sampleId
    interviewDelete db3 pk

/-- The body of `DialerAssignment.expire_due_to_ttl` on one fetched row:
a full no-op unless the row is still `reserved`. -/
def expireTtlRow (db : DB) (a : Assignment) : DB :=
  if a.status = .reserved then
    let db1 := decrement_in_progress db a.cellId false
    let db2 := updateAssignmentRows db1 a.id (fun x => { x with status := .expired })
    let db3 := sample_mark_available db2 a.sampleId
    interviewDelete db3 a.id
  else db

/-- `DialerAssignment.expire_due_to_ttl` by primary key. -/
def expire_due_to_ttl (db : DB) (pk : Nat) : DB :=
  match findAssignment db pk with
  | none => db
  | some a => expireTtlRow db a

/-- `DialerAssignmentQuerySet.expire_overdue` restricted to one project:
walk the overdue `reserved` rows in ascending pk order and expire each. -/
def expire_overdue (db : DB) (projectId : Nat) (now : Int) : DB :=
  let rows := (db.assignments.filter (fun a =>
      a.projectId = projectId && a.status = .reserved && a.expiresAt ≤ now))
  let rows := rows.insertionSort (fun a b => a.id ≤ b.id)
  rows.foldl expireTtlRow db

/-! ## Claiming a sample (models.py `SampleContact.claim_next`) -/

/-- The `last_attempt_at asc nulls first` ordering on optional timestamps:
`none` sorts before every `some`, strict comparison otherwise. -/
def optTimeLT : Option Int → Option Int → Prop
  | none, some _ => True
  | some x, some y => x < y
  | _, _ => False

instance : DecidableRel optTimeLT := fun a b => by
  unfold optTimeLT
  cases a <;> cases b <;> infer_instance

/-- The total row order of `claim_next`:
`last_attempt_at asc nulls first, id asc`. -/
def sampleLE (s t : Sample) : Prop :=
  optTimeLT s.lastAttemptAt t.lastAttemptAt ∨
    (s.lastAttemptAt = t.lastAttemptAt ∧ s.id ≤ t.id)

instance : DecidableRel sampleLE := fun s t => by
  unfold sampleLE
  infer_instance

theorem sampleLE_total (s t : Sample) : sampleLE s t ∨ sampleLE t s := by
  unfold sampleLE
  rcases h1 : s.lastAttemptAt with _ | x <;> rcases h2 : t.lastAttemptAt with _ | y <;>
    simp [optTimeLT, h1, h2] <;> omega

theorem sampleLE_trans (s t u : Sample) (hst : sampleLE s t) (htu : sampleLE t u) :
    sampleLE s u := by
  unfold sampleLE at hst htu ⊢
  rcases h1 : s.lastAttemptAt with _ | x <;> rcases h2 : t.lastAttemptAt with _ | y <;>
    rcases h3 : u.lastAttemptAt with _ | z <;>
    simp [optTimeLT, h1, h2, h3] at hst htu ⊢ <;> omega

instance : IsTotal Sample sampleLE := ⟨sampleLE_total⟩

instance : IsTrans Sample sampleLE := ⟨sampleLE_trans⟩

/-- The filtered pool `claim_next` selects from: this project and cell,
`available`, active, and not on the do-not-contact list. -/
def claimPool (db : DB) (projectId cellId : Nat) : List Sample :=
  db.samples.filter (fun s =>
    s.projectId = projectId && s.cellId = some cellId &&
      s.status = SStatus.available && s.isActive &&
      !(db.dnc.contains s.phoneNumber))

/-- The atomic update `claim_next` applies to the selected row. -/
def claimUpdate (interviewer : Nat) (now : Int) (s : Sample) : Sample :=
  { s with status := .claimed, attemptCount := s.attemptCount + 1,
           lastAttemptAt := some now, interviewerId := some interviewer,
           usedAt := some now }

/-- `SampleContact.claim_next`: take the least row of the pool under
`sampleLE` (the `order_by(...).first()` of the source), claim it, and
return the refreshed row; `none` leaves the state untouched. -/
def claim_next (db : DB) (projectId cellId interviewer : Nat) (now : Int) :
    Option Sample × DB :=
  match (claimPool db projectId cellId).insertionSort sampleLE with
  | [] => (none, db)
  | entry :: _ =>
    (some (claimUpdate interviewer now entry),
     updateSampleRows db entry.id (claimUpdate interviewer now))

/-! ## Scheme selection (models.py `QuotaScheme.pick_for_project`) -/

/-- The reservation errors the source raises: the `ValueError` for a live
reservation, and the three distinct `LookupError` messages. -/
inductive RErr where
  | alreadyReserved
  | noScheme
  | noCapacity
  | noSample
deriving DecidableEq, Repr

/-- Descending order on nullable `published_at` stamps: null first (as
Postgres sorts `DESC`), then later stamps before earlier ones. -/
def pubDescLE : Option Int → Option Int → Prop
  | none, _ => True
  | some _, none => False
  | some x, some y => y ≤ x

instance : DecidableRel pubDescLE
  | none, _ => isTrue trivial
  | some _, none => isFalse (fun h => h)
  | some x, some y => inferInstanceAs (Decidable (y ≤ x))

/-- The `order_by('-priority', '-published_at')` row order. -/
def schemeLE (a b : Scheme) : Prop :=
  b.priority < a.priority ∨
    (a.priority = b.priority ∧ pubDescLE a.publishedAt b.publishedAt)

instance : DecidableRel schemeLE := fun a b => by
  unfold schemeLE
  infer_instance

/-- `QuotaScheme.pick_for_project`: published schemes of the project only;
an explicit id must match one of them, otherwise prefer defaults, then any,
under `schemeLE`; no match raises the no-scheme `LookupError`. -/
def pick_for_project (db : DB) (projectId : Nat) (schemeId : Option Nat) :
    Except RErr Scheme :=
  let published := db.schemes.filter (fun s =>
    s.projectId = projectId && s.status = SchemeStatus.published)
  match schemeId with
  | some sid =>
    match published.find? (fun s => s.id = sid) with
    | none => .error .noScheme
    | some s => .ok s
  | none =>
    match ((published.filter (fun s => s.isDefault)).insertionSort schemeLE).head? with
    | some s => .ok s
    | none =>
      match (published.insertionSort schemeLE).head? with
      | some s => .ok s
      | none => .error .noScheme

/-! ## Cell ranking (models.py `reserve_next`, `sort_key`) -/

/-- The score `sort_key` negates: `weighted_score` under the weighted
policy, and `remaining_slots` (with `None` mapped to `∞`) otherwise. -/
def cellScore (policy : Policy) (c : Cell) : WithTop Rat :=
  match policy with
  | .weighted => c.weighted_score policy
  | _ =>
    match c.remaining_slots policy with
    | none => ⊤
    | some r => ((r : Rat) : WithTop Rat)

/-- The ascending order on `(-score, cell.pk)` used by the candidate sort:
higher scores (with `∞` greatest) come first, ties break on ascending id. -/
def cellLE (policy : Policy) (a b : Cell) : Prop :=
  cellScore policy b < cellScore policy a ∨
    (cellScore policy a = cellScore policy b ∧ a.id ≤ b.id)

instance (policy : Policy) : DecidableRel (cellLE policy) := fun a b => by
  unfold cellLE
  infer_instance

theorem cellLE_total (policy : Policy) (a b : Cell) :
    cellLE policy a b ∨ cellLE policy b a := by
  unfold cellLE
  rcases lt_trichotomy (cellScore policy a) (cellScore policy b) with h | h | h
  · exact Or.inr (Or.inl h)
  · rcases Nat.le_total a.id b.id with h2 | h2
    · exact Or.inl (Or.inr ⟨h, h2⟩)
    · exact Or.inr (Or.inr ⟨h.symm, h2⟩)
  · exact Or.inl (Or.inl h)

theorem cellLE_trans (policy : Policy) (a b c : Cell)
    (hab : cellLE policy a b) (hbc : cellLE policy b c) : cellLE policy a c := by
  unfold cellLE at hab hbc ⊢
  rcases hab with hab | hab <;> rcases hbc with hbc | hbc
  · exact Or.inl (hbc.trans hab)
  · exact Or.inl (hbc.1 ▸ hab)
  · exact Or.inl (hab.1 ▸ hbc)
  · exact Or.inr ⟨hab.1.trans hbc.1, hab.2.trans hbc.2⟩

instance (policy : Policy) : IsTotal Cell (cellLE policy) := ⟨cellLE_total policy⟩

instance (policy : Policy) : IsTrans Cell (cellLE policy) := ⟨cellLE_trans policy⟩

/-- The cells of the scheme that still have capacity under its policy. -/
def candidateCells (db : DB) (scheme : Scheme) : List Cell :=
  (db.cells.filter (fun c => c.schemeId = scheme.id)).filter
    (fun c => c.has_capacity scheme.overflowPolicy)

/-- The candidate cells in the order the engine tries them. -/
def rankedCandidates (db : DB) (scheme : Scheme) : List Cell :=
  (candidateCells db scheme).insertionSort (cellLE scheme.overflowPolicy)

/-! ## The reservation engine (models.py `DialerAssignment.reserve_next`) -/

/-- The `post_save` hook of signals.py (`ensure_assignment_interview`):
`Interview.objects.get_or_create(assignment=instance)` — an interview with
all-default fields unless one already exists. -/
def ensureInterview (db : DB) (aId : Nat) : DB :=
  if db.interviews.any (fun iv => iv.assignmentId = aId) then db
  else
    { db with interviews := db.interviews ++
        [{ assignmentId := aId, startForm := none, endForm := none,
           status := .notStarted, outcomeCode := none }] }

/-- Assignment creation (`objects.create`) plus the `post_save` hook. -/
def createAssignment (db : DB) (a : Assignment) : DB :=
  ensureInterview
    { db with assignments := db.assignments ++ [a],
              nextAssignmentId := db.nextAssignmentId + 1 } a.id

/-- The per-cell loop of `reserve_next`: claim a sample from each candidate
in order; on success create the assignment (firing the interview hook) and
bump the cell counters, returning from the `with` block.  An exhausted list
falls out of the loop with no assignment — the no-sample `LookupError` is
raised only after the block, so this is not an in-transaction error. -/
def tryCells (db : DB) (scheme : Scheme) (projectId interviewer : Nat)
    (now expiresAt : Int) : List Cell → DB × Option Assignment
  | [] => (db, none)
  | c :: rest =>
    match claim_next db projectId c.id interviewer now with
    | (none, db1) => tryCells db1 scheme projectId interviewer now expiresAt rest
    | (some sample, db1) =>
      let a : Assignment :=
        { id := db1.nextAssignmentId, projectId := projectId,
          schemeId := scheme.id, cellId := c.id, interviewerId := interviewer,
          sampleId := sample.id, status := .reserved, reservedAt := now,
          expiresAt := expiresAt, completedAt := none, outcomeCode := none }
      let db2 := createAssignment db1 a
      let db3 := increment_in_progress db2 c.id
      (db3, some a)

/-- Does the interviewer hold a live reservation (`status = reserved` and
`expires_at > now`)? -/
def activeReservation (db : DB) (interviewer : Nat) (now : Int) : Bool :=
  db.assignments.any (fun a =>
    a.interviewerId = interviewer && a.status = AStatus.reserved && now < a.expiresAt)

/-- The body of `reserve_next`, inside its `transaction.atomic` block:
sweep this project's overdue reservations, enforce the one-live-reservation
rule, pick the scheme, rank the cells, then walk them.  `.error` is an
exception raised inside the block; `.ok (db1, none)` is the block running
to completion without finding a claimable sample. -/
def reserveNextBody (db : DB) (projectId interviewer : Nat) (ttl : Int)
    (schemeId : Option Nat) (now : Int) : Except RErr (DB × Option Assignment) :=
  if activeReservation (expire_overdue db projectId now) interviewer now then
    .error .alreadyReserved
  else
    match pick_for_project (expire_overdue db projectId now) projectId schemeId with
    | .error e => .error e
    | .ok scheme =>
      if (rankedCandidates (expire_overdue db projectId now) scheme).isEmpty then
        .error .noCapacity
      else
        .ok (tryCells (expire_overdue db projectId now) scheme projectId interviewer now
          (now + ttl) (rankedCandidates (expire_overdue db projectId now) scheme))

/-- `DialerAssignment.reserve_next`: the `transaction.atomic` block around
`reserveNextBody`.  An error raised inside the block rolls the whole
transaction back to the entry state; a block that completes commits its
state.  When the cell loop found no sample, the block completes (commits the
sweep's expirations) and only then is the no-sample `LookupError` raised —
models.py places that `raise` after the `with transaction.atomic()` block. -/
def reserve_next (db : DB) (projectId interviewer : Nat) (ttl : Int)
    (schemeId : Option Nat) (now : Int) : DB × Except RErr Assignment :=
  match reserveNextBody db projectId interviewer ttl schemeId now with
  | .ok (db1, some a) => (db1, .ok a)
  | .ok (db1, none) => (db1, .error .noSample)
  | .error e => (db, .error e)

/-! ## Dates and age arithmetic (models.py `_years_ago`, `_calculate_age`,
`_parse_age_band`) -/

/-- A calendar date, as the `(year, month, day)` triple Python exposes. -/
structure Date where
  year : Int
  month : Int
  day : Int
deriving DecidableEq, Repr

/-- Chronological comparison of dates (SQL `BETWEEN` on `DATE` columns). -/
def dateLE (a b : Date) : Bool :=
  a.year < b.year ||
    (a.year = b.year &&
      (a.month < b.month || (a.month = b.month && a.day ≤ b.day)))

/-- Gregorian leap years, as `datetime.date` validity decides them. -/
def isLeap (y : Int) : Bool := (y % 4 = 0 && y % 100 ≠ 0) || y % 400 = 0

/-- `_years_ago`: `base.replace(year=base.year - years)`, clamping a
February 29 source to February 28 when the target year is not leap. -/
def years_ago (base : Date) (years : Int) : Date :=
  let y := base.year - years
  if base.month = 2 && base.day = 29 && !(isLeap y) then
    { year := y, month := 2, day := 28 }
  else
    { year := y, month := base.month, day := base.day }

/-- `_calculate_age`: calendar years elapsed, one less before the birthday. -/
def calculate_age (today : Date) (dob : Option Date) : Option Int :=
  match dob with
  | none => none
  | some d =>
    let adjust : Int :=
      if today.month < d.month || (today.month = d.month && today.day < d.day)
      then 1 else 0
    some (today.year - d.year - adjust)

/-- Python `int(...)` on a string: optional surrounding whitespace and an
optional sign, digits otherwise. -/
def pyInt? (s : String) : Option Int :=
  let t := s.trim
  let t := if t.startsWith "+" then t.drop 1 else t
  t.toInt?

/-- `_parse_age_band`.  The `"A+"` arm calls `int` outside any handler, so
a malformed prefix there propagates as an exception (`.error`); the
`"A-B"` arm catches its parse failures and yields `none`. -/
def parse_age_band (label : String) : Except Unit (Option (Int × Int)) :=
  let l := label.trim
  if l = "" then .ok none
  else if l.endsWith "+" then
    match pyInt? (l.dropRight 1) with
    | some start => .ok (some (start, 120))
    | none => .error ()
  else if (l.splitOn "-").length ≥ 2 then
    match l.splitOn "-" with
    | p1 :: rest =>
      match pyInt? p1, pyInt? (String.intercalate "-" rest) with
      | some a, some b => .ok (some (a, b))
      | _, _ => .ok none
    | [] => .ok none
  else
    match pyInt? l with
    | some v => .ok (some (v, v))
    | none => .ok none

/-! ## The sample pool builder (models.py `build_sample_pool_for_cell`) -/

/-- `_normalize_filter_values`: `None` (or an absent key) gives the empty
list, a list is stripped of `None` entries, a scalar is wrapped. -/
def normalize_filter_values : Option SelVal → List Scalar
  | none => []
  | some (.scalar .null) => []
  | some (.scalar v) => [v]
  | some (.list vs) => vs.filter (fun v => v ≠ Scalar.null)

/-- Numeric value of a scalar under Python's `isinstance(x, (int, float))`
(booleans count as integers there). -/
def scalarNumVal : Scalar → Option Int
  | .int n => some n
  | .boolean b => some (if b then 1 else 0)
  | _ => none

/-- The explicit `age` / `age_range` ranges: a two-element numeric list is
one range; anything else contributes nothing representable here (the
remaining source arm iterates nested lists, which a flat `SelVal` cannot
hold). -/
def explicitAgeRanges (vals : List Scalar) : List (Int × Int) :=
  match vals with
  | [a, b] =>
    match scalarNumVal a, scalarNumVal b with
    | some x, some y => [(x, y)]
    | _, _ => []
  | _ => []

/-- The SQL-side age ranges from `age_band` strings; a malformed `"A+"`
band raises. -/
def bandsToRanges : List Scalar → Except Unit (List (Int × Int))
  | [] => .ok []
  | v :: rest => do
    let head ← match v with
      | .str s => parse_age_band s
      | _ => .ok none
    let tail ← bandsToRanges rest
    match head with
    | some pr => .ok (pr :: tail)
    | none => .ok tail

/-- An external `bank_phone ⋈ bank_person` row. -/
structure BankRow where
  phoneId : Int
  msisdn : String
  personId : Int
  gender : Option String
  dob : Option Date
  provinceCode : Option String
  cityCode : Option String
  isMobile : Bool
  isActive : Bool
deriving DecidableEq, Repr

/-- `column = ANY(values)` on a nullable text column: null never matches. -/
def anyMatchStr (vs : List Scalar) (g : Option String) : Bool :=
  match g with
  | none => false
  | some s => vs.contains (.str s)

/-- The `OR` of `dob BETWEEN years_ago(today, max) AND years_ago(today, min)`
clauses; a null date of birth fails every clause. -/
def dobInRanges (today : Date) (ranges : List (Int × Int)) (dob : Option Date) : Bool :=
  match dob with
  | none => false
  | some d =>
    ranges.any (fun pr => dateLE (years_ago today pr.2) d && dateLE d (years_ago today pr.1))

/-- The `WHERE` clause of the builder query: active mobile phones, not on
the DNC list, matching each non-empty selector filter, and not already in
this project's pool (by msisdn). -/
def bankRowPasses (dnc poolPhones : List String)
    (genders provinces cities : List Scalar) (ranges : List (Int × Int))
    (today : Date) (r : BankRow) : Bool :=
  r.isActive && r.isMobile && !(dnc.contains r.msisdn) &&
    (genders.isEmpty || anyMatchStr genders r.gender) &&
    (provinces.isEmpty || anyMatchStr provinces r.provinceCode) &&
    (cities.isEmpty || anyMatchStr cities r.cityCode) &&
    (ranges.isEmpty || dobInRanges today ranges r.dob) &&
    !(poolPhones.contains r.msisdn)

/-- `limit or (cell.target or 0) * multiplier`, then `1000` when that is
not positive: the `LIMIT` actually sent to the bank query. -/
def pool_limit_value (limit : Option Int) (target : Option Nat) (multiplier : Int) : Int :=
  let fallback : Int := ((target.getD 0 : Nat) : Int) * multiplier
  let base : Int :=
    match limit with
    | none => fallback
    | some l => if l = 0 then fallback else l
  if base ≤ 0 then 1000 else base

/-- The per-row band search: the first band (as a string) whose parsed
range contains the age; parsing a malformed `"A+"` band raises. -/
def firstMatchingBand (age : Int) : List Scalar → Except Unit (Option String)
  | [] => .ok none
  | b :: rest => do
    let p ← parse_age_band b.pyStr
    match p with
    | some pr =>
      if pr.1 ≤ age && age ≤ pr.2 then .ok (some b.pyStr)
      else firstMatchingBand age rest
    | none => firstMatchingBand age rest

/-- The `age_band_value` computed for one fetched row. -/
def assignBand (ageBands : List Scalar) (today : Date) (dob : Option Date) :
    Except Unit (Option String) :=
  if ageBands.isEmpty then .ok none
  else
    match calculate_age today dob with
    | none => .ok none
    | some age => firstMatchingBand age ageBands

/-- The `SampleContact(...)` instance the builder constructs from one bank
row (fresh rows carry empty `attributes`). -/
def rowToSample (projectId cellId : Nat) (band : Option String) (r : BankRow) : Sample :=
  { id := 0, projectId := projectId, cellId := some cellId,
    phoneId := some r.phoneId, personId := some r.personId,
    phoneNumber := r.msisdn,
    gender := r.gender.map .str, ageBand := band.map .str,
    provinceCode := r.provinceCode.map .str, cityCode := r.cityCode.map .str,
    attributes := [], isActive := true, status := .available,
    attemptCount := 0, lastAttemptAt := none, interviewerId := none,
    usedAt := none }

/-- A violation of the `(project, quota_cell, phone_id)` unique constraint
(SQL nulls never conflict). -/
def conflictsPool (existing : List Sample) (s : Sample) : Bool :=
  existing.any (fun t =>
    t.projectId = s.projectId && t.cellId = s.cellId && t.phoneId = s.phoneId &&
      s.phoneId ≠ none && s.cellId ≠ none)

/-- `bulk_create(created, ignore_conflicts=True)`. -/
def bulkCreateIgnoreConflicts (samples created : List Sample) : List Sample :=
  created.foldl (fun acc s => if conflictsPool acc s then acc else acc ++ [s]) samples

/-- `cell.project` through the scheme foreign key. -/
def cellProjectId (db : DB) (c : Cell) : Nat :=
  ((db.schemes.find? (fun s => s.id = c.schemeId)).map (fun s => s.projectId)).getD 0

/-- The row loop of the builder: one `SampleContact` per fetched bank row,
with the age band assigned per row (raising on a malformed `"A+"` band). -/
def buildRows (ageBands : List Scalar) (today : Date) (projectId cellId : Nat) :
    List BankRow → Except Unit (List Sample)
  | [] => .ok []
  | r :: rest =>
    match assignBand ageBands today r.dob with
    | .error e => .error e
    | .ok band =>
      match buildRows ageBands today projectId cellId rest with
      | .error e => .error e
      | .ok tail => .ok (rowToSample projectId cellId band r :: tail)

/-- The bank query of the builder: equality filters and age ranges from
the selector, DNC and existing-pool exclusion, ordered by phone id and
bounded by the effective `LIMIT`. -/
def bankQueryRows (db : DB) (bank : List BankRow) (cell : Cell)
    (limit : Option Int) (multiplier : Int) (today : Date)
    (bandRanges : List (Int × Int)) : List BankRow :=
  let sel := cell.selector
  let projectId := cellProjectId db cell
  let genders := normalize_filter_values (selGet sel "gender")
  let provinces := normalize_filter_values (selGet sel "province_code")
  let cities := normalize_filter_values (selGet sel "city_code")
  let ageRaw := if selValTruthy (selGet sel "age") then selGet sel "age"
                else selGet sel "age_range"
  let ranges := explicitAgeRanges (normalize_filter_values ageRaw) ++ bandRanges
  let poolPhones := (db.samples.filter (fun s => s.projectId = projectId)).map
    (fun s => s.phoneNumber)
  let rows := bank.filter
    (bankRowPasses db.dnc poolPhones genders provinces cities ranges today)
  (rows.insertionSort (fun a b => a.phoneId ≤ b.phoneId)).take
    (pool_limit_value limit cell.target multiplier).toNat

/-- The tail of the builder: the attempted count and the bulk insert
(ignoring conflicts), with the empty batch short-circuited. -/
def buildFinish (db : DB) (created : List Sample) : Nat × DB :=
  if created.isEmpty then (0, db)
  else (created.length,
    { db with samples := bulkCreateIgnoreConflicts db.samples created })

/-- `build_sample_pool_for_cell`: split the selector into filters, query
the bank (ordered by phone id, bounded by the effective limit), assign age
bands, bulk-insert ignoring conflicts, and return the attempted count. -/
def build_sample_pool_for_cell (db : DB) (bank : List BankRow) (cell : Cell)
    (limit : Option Int) (multiplier : Int) (today : Date) :
    Except Unit (Nat × DB) :=
  match bandsToRanges (normalize_filter_values (selGet cell.selector "age_band")) with
  | .error e => .error e
  | .ok bandRanges =>
    match buildRows (normalize_filter_values (selGet cell.selector "age_band")) today
        (cellProjectId db cell) cell.id
        (bankQueryRows db bank cell limit multiplier today bandRanges) with
    | .error e => .error e
    | .ok created => .ok (buildFinish db created)

/-! ## Bulk cell upsert (views.py `QuotaSchemeViewSet.bulk_upsert_cells`) -/

/-- The fate of a numeric payload field under `int(...)`: absent (or
`None`/blank where that matters), unparseable, or a parsed value. -/
inductive MaybeNum where
  | unset
  | bad
  | val (z : Int)
deriving DecidableEq, Repr

/-- The fate of the `weight` field under `float(...)`. -/
inductive MaybeWeight where
  | unset
  | bad
  | val (q : Rat)
deriving DecidableEq, Repr

/-- One cell definition of the bulk payload, after the view has derived a
selector dict for it (an underivable or empty selector is the empty list). -/
structure CellRow where
  selector : Selector
  target : MaybeNum
  softCap : MaybeNum
  weight : MaybeWeight
deriving DecidableEq, Repr

/-- The `ValidationError`s the view raises while walking the payload. -/
inductive VErr where
  | selectorRequired
  | badTarget
  | badSoftCap
  | badWeight
deriving DecidableEq, Repr

/-- Processing one payload row: reject an empty selector or a malformed
number, then `update_or_create` on `(scheme, selector)` with the clamped
defaults `target = max(target, 0)`, `soft_cap = max(soft_cap, 0)`,
`weight = max(weight, 0.0001)`. -/
def upsertCellRow (db : DB) (schemeId freshId : Nat) (row : CellRow) :
    Except VErr DB :=
  if row.selector.isEmpty then .error .selectorRequired
  else
    match row.target with
    | .unset => .error .badTarget
    | .bad => .error .badTarget
    | .val t =>
      match row.softCap with
      | .bad => .error .badSoftCap
      | sc =>
        let softCapVal : Option Nat :=
          match sc with
          | .val z => some (max z 0).toNat
          | _ => none
        match row.weight with
        | .bad => .error .badWeight
        | w =>
          let weightVal : Rat :=
            match w with
            | .val q => max q (1 / 10000)
            | _ => 1
          let targetVal : Option Nat := some (max t 0).toNat
          match db.cells.any (fun c => c.schemeId = schemeId && c.selector = row.selector) with
          | true =>
            .ok { db with cells := db.cells.map (fun c =>
              if c.schemeId = schemeId && c.selector = row.selector then
                { c with target := targetVal, softCap := softCapVal, weight := weightVal }
              else c) }
          | false =>
            .ok { db with cells := db.cells ++
              [{ id := freshId, schemeId := schemeId, selector := row.selector,
                 target := targetVal, softCap := softCapVal, weight := weightVal,
                 achieved := 0, inProgress := 0, reserved := 0 }] }

/-- The payload loop: the view is not wrapped in an atomic block, so an
error midway leaves the rows already processed persisted. -/
def bulkUpsertGo (schemeId : Nat) : DB → Nat → List CellRow → DB × Option VErr
  | db, _, [] => (db, none)
  | db, fresh, r :: rest =>
    match upsertCellRow db schemeId fresh r with
    | .error e => (db, some e)
    | .ok db1 => bulkUpsertGo schemeId db1 (fresh + 1) rest

/-- A fresh primary key for created cells. -/
def freshCellId (db : DB) : Nat := (db.cells.foldl (fun m c => max m c.id) 0) + 1

/-- `bulk_upsert_cells` over a scheme's payload. -/
def bulk_upsert_cells (db : DB) (schemeId : Nat) (rows : List CellRow) :
    DB × Option VErr :=
  bulkUpsertGo schemeId db (freshCellId db) rows

/-! ## The committed-state machine over the core operations -/

/-- One core operation, as the spec's §6 lists them. -/
inductive CoreOp where
  | reserve (projectId interviewer : Nat) (ttl : Int) (schemeId : Option Nat) (now : Int)
  | complete (pk : Nat) (outcome : Option String) (now : Int)
  | failOp (pk : Nat) (outcome : Option String) (now : Int)
  | cancel (pk : Nat) (now : Int)
  | expire (pk : Nat)
  | sweep (projectId : Nat) (now : Int)
deriving DecidableEq, Repr

/-- The committed state after one core operation (a failed `ReserveNext`
commits nothing). -/
def applyOp (db : DB) : CoreOp → DB
  | .reserve p i ttl sid now => (reserve_next db p i ttl sid now).1
  | .complete pk oc now => mark_completed db pk oc now
  | .failOp pk oc now => mark_failed db pk oc now
  | .cancel pk now => mark_cancelled db pk now
  | .expire pk => mark_expired db pk
  | .sweep p now => expire_overdue db p now

/-- Replay of a sequence of core operations. -/
def applyOps (db : DB) (ops : List CoreOp) : DB :=
  ops.foldl applyOp db

/-- Invariant (I7)/(P2): `in_progress = reserved` on every cell. -/
def Paired (db : DB) : Prop := ∀ c ∈ db.cells, c.inProgress = c.reserved

instance (db : DB) : Decidable (Paired db) := by
  unfold Paired
  infer_instance

/-! ## Projection lemmas for the row operations -/

theorem cells_updateSampleRows (db : DB) (pk : Nat) (f : Sample → Sample) :
    (updateSampleRows db pk f).cells = db.cells := rfl

theorem cells_updateAssignmentRows (db : DB) (pk : Nat) (f : Assignment → Assignment) :
    (updateAssignmentRows db pk f).cells = db.cells := rfl

theorem cells_interviewDelete (db : DB) (n : Nat) :
    (interviewDelete db n).cells = db.cells := rfl

theorem cells_interviewUpsertCompleted (db : DB) (n : Nat) (s e : Option Int)
    (oc : Option String) :
    (interviewUpsertCompleted db n s e oc).cells = db.cells := by
  unfold interviewUpsertCompleted
  split <;> rfl

theorem cells_sample_mark_available (db : DB) (pk : Nat) :
    (sample_mark_available db pk).cells = db.cells := rfl

theorem cells_sample_mark_completed (db : DB) (pk : Nat) :
    (sample_mark_completed db pk).cells = db.cells := rfl

theorem claim_next_state (db : DB) (p cid i : Nat) (now : Int) :
    (claim_next db p cid i now).2 = db ∨
      ∃ pk, (claim_next db p cid i now).2 = updateSampleRows db pk (claimUpdate i now) := by
  unfold claim_next
  split
  · exact Or.inl rfl
  · exact Or.inr ⟨_, rfl⟩

theorem cells_claim_next (db : DB) (p cid i : Nat) (now : Int) :
    (claim_next db p cid i now).2.cells = db.cells := by
  rcases claim_next_state db p cid i now with h | ⟨pk, h⟩ <;> rw [h] <;> rfl

theorem interviews_claim_next (db : DB) (p cid i : Nat) (now : Int) :
    (claim_next db p cid i now).2.interviews = db.interviews := by
  rcases claim_next_state db p cid i now with h | ⟨pk, h⟩ <;> rw [h] <;> rfl

theorem nextId_claim_next (db : DB) (p cid i : Nat) (now : Int) :
    (claim_next db p cid i now).2.nextAssignmentId = db.nextAssignmentId := by
  rcases claim_next_state db p cid i now with h | ⟨pk, h⟩ <;> rw [h] <;> rfl

/-! ## Claim C2: capacity of a zero-target cell -/

/-- A quota cell with `target = 0`, no soft cap, and clean counters. -/
def c2Cell : Cell :=
  { id := 1, schemeId := 1, selector := [], target := some 0, softCap := none,
    weight := 1, achieved := 0, inProgress := 0, reserved := 0 }

/-- Claim C2, refuted.  The claim says a cell with `target = 0` and no
soft cap is unlimited (`capacity_limit = ∞`, `has_capacity` true,
`weighted_score = ∞`); on the code the limit of this concrete cell is
`some 0`, it has no capacity, and its weighted score is `0`, under every
policy.  Only `target is None` yields the unlimited sentinel. -/
theorem C2_counterexample :
    c2Cell.capacity_limit .strict = some 0 ∧
    c2Cell.capacity_limit .soft = some 0 ∧
    c2Cell.capacity_limit .weighted = some 0 ∧
    c2Cell.capacity_limit .strict ≠ none ∧
    c2Cell.has_capacity .strict = false ∧
    c2Cell.has_capacity .soft = false ∧
    c2Cell.has_capacity .weighted = false ∧
    c2Cell.weighted_score .weighted ≠ (⊤ : WithTop Rat) := by
  refine ⟨rfl, rfl, rfl, by simp [c2Cell, Cell.capacity_limit], rfl, rfl, rfl, by decide⟩

/-- Claim C2, amended: `capacity_limit` is unlimited (`none`) exactly when
`target` is unset (`None`); for a cell with `target = 0` and no soft cap —
its counters nonnegative, as the unsigned columns guarantee — the limit is
`0`, there are no remaining slots, `has_capacity` is false and
`weighted_score` is `0`, under every overflow policy. -/
theorem C2_zero_target_limited (c : Cell) (p : Policy) :
    (c.capacity_limit p = none ↔ c.target = none) ∧
    (c.target = some 0 → c.softCap = none → 0 ≤ c.achieved + c.inProgress →
      c.capacity_limit p = some 0 ∧ c.remaining_slots p = some 0 ∧
      c.has_capacity p = false ∧
      c.weighted_score p = ((0 : Rat) : WithTop Rat)) := by
  constructor
  · unfold Cell.capacity_limit
    rcases h : c.target with _ | t
    · simp
    · rcases p <;> rcases c.softCap with _ | s <;> simp <;> split <;> simp
  · intro ht hs hcnt
    have hcap : c.capacity_limit p = some 0 := by
      unfold Cell.capacity_limit
      rw [ht, hs]
      rcases p <;> rfl
    have hrem : c.remaining_slots p = some 0 := by
      have h0 : ((0 : Nat) : Int) - (c.achieved + c.inProgress) ≤ 0 := by omega
      unfold Cell.remaining_slots
      rw [hcap]
      show some ((((0 : Nat) : Int) - (c.achieved + c.inProgress)) ⊔ 0) = some 0
      rw [max_eq_right h0]
    refine ⟨hcap, hrem, ?_, ?_⟩
    · unfold Cell.has_capacity
      rw [hrem]
      rfl
    · unfold Cell.weighted_score
      rw [hrem]
      simp

/-- Witness for the amended C2 at the concrete zero-target cell. -/
theorem C2_witness :
    c2Cell.target = some 0 ∧ c2Cell.softCap = none ∧
      (0 : Int) ≤ c2Cell.achieved + c2Cell.inProgress ∧
      (c2Cell.capacity_limit .weighted = some 0 ∧
        c2Cell.remaining_slots .weighted = some 0 ∧
        c2Cell.has_capacity .weighted = false ∧
        c2Cell.weighted_score .weighted = ((0 : Rat) : WithTop Rat)) :=
  ⟨rfl, rfl, by decide,
    (C2_zero_target_limited c2Cell .weighted).2 rfl rfl (by decide)⟩

/-! ## Claim C1: transitions on terminal assignments -/

/-- A completed (terminal) assignment. -/
def c1Assignment : Assignment :=
  { id := 1, projectId := 1, schemeId := 1, cellId := 1, interviewerId := 7,
    sampleId := 5, status := .completed, reservedAt := 0, expiresAt := 10,
    completedAt := some 5, outcomeCode := some "COMP" }

/-- A store holding the completed assignment, its cell and its sample. -/
def c1Db : DB :=
  { schemes := [{ id := 1, projectId := 1, status := .published,
                  overflowPolicy := .strict, priority := 0, isDefault := true,
                  publishedAt := some 0 }],
    cells := [{ id := 1, schemeId := 1, selector := [], target := some 2,
                softCap := none, weight := 1, achieved := 1, inProgress := 0,
                reserved := 0 }],
    samples := [{ id := 5, projectId := 1, cellId := some 1, phoneId := some 1,
                  personId := some 1, phoneNumber := "0912", gender := none,
                  ageBand := none, provinceCode := none, cityCode := none,
                  attributes := [], isActive := true, status := .completed,
                  attemptCount := 1, lastAttemptAt := some 1,
                  interviewerId := some 7, usedAt := some 1 }],
    assignments := [c1Assignment], interviews := [], dnc := [],
    nextAssignmentId := 2 }

/-- Claim C1, refuted.  Applying `mark_failed` to this already-completed
assignment is not a no-op: its status flips from `completed` to `failed`
(and its `completed_at` is restamped, the sample is released back to
`available`), so terminal statuses are not sticky under the direct
transitions — only the counter deltas are guarded. -/
theorem C1_counterexample :
    c1Assignment.status.terminal = true ∧
    findAssignment c1Db 1 = some c1Assignment ∧
    (findAssignment (mark_failed c1Db 1 none 6) 1).map (fun a => a.status) =
      some .failed ∧
    (findAssignment (mark_failed c1Db 1 none 6) 1).map (fun a => a.status) ≠
      some .completed ∧
    ((mark_failed c1Db 1 none 6).samples.find? (fun s => s.id = 5)).map
        (fun s => s.status) = some .available := by
  decide

/-- Claim C1, amended: on an assignment whose status is terminal (not
`reserved`), every direct transition (`mark_completed`, `mark_failed`,
`mark_cancelled`, `mark_expired`) leaves the quota cells — the counters —
untouched, and the TTL path `expire_due_to_ttl` is a complete no-op;
the direct transitions themselves still overwrite the assignment row and
re-apply sample and interview effects, so the claimed full idempotence
does not hold for them. -/
theorem C1_terminal_transitions (db : DB) (pk : Nat) (a : Assignment)
    (h : findAssignment db pk = some a) (hterm : a.status ≠ .reserved)
    (oc : Option String) (now : Int) :
    (mark_completed db pk oc now).cells = db.cells ∧
    (mark_failed db pk oc now).cells = db.cells ∧
    (mark_cancelled db pk now).cells = db.cells ∧
    (mark_expired db pk).cells = db.cells ∧
    expire_due_to_ttl db pk = db := by
  unfold mark_completed mark_failed mark_cancelled mark_expired expire_due_to_ttl
  rw [h]
  simp only [if_neg hterm, cells_interviewUpsertCompleted, cells_interviewDelete,
    cells_sample_mark_available, cells_sample_mark_completed,
    cells_updateAssignmentRows]
  refine ⟨trivial, trivial, trivial, trivial, ?_⟩
  unfold expireTtlRow
  rw [if_neg hterm]

/-- Witness for the amended C1 at the concrete completed assignment. -/
theorem C1_witness :
    findAssignment c1Db 1 = some c1Assignment ∧
    c1Assignment.status ≠ .reserved ∧
    ((mark_completed c1Db 1 none 6).cells = c1Db.cells ∧
     (mark_failed c1Db 1 none 6).cells = c1Db.cells ∧
     (mark_cancelled c1Db 1 6).cells = c1Db.cells ∧
     (mark_expired c1Db 1).cells = c1Db.cells ∧
     expire_due_to_ttl c1Db 1 = c1Db) :=
  ⟨by decide, by decide,
    C1_terminal_transitions c1Db 1 c1Assignment (by decide) (by decide) none 6⟩

/-! ## Claim C5: the pool builder's effective limit and returned count -/

/-- The effective limit as the claim words it:
`limit` when provided, else `max(target × multiplier, 1000)`. -/
def claimed_effective_limit (limit : Option Int) (target : Option Nat)
    (multiplier : Int) : Int :=
  match limit with
  | some l => l
  | none => max (((target.getD 0 : Nat) : Int) * multiplier) 1000

/-- The effective limit as the code computes it, restated: a positive
`limit` wins; a missing or zero `limit` falls back to
`target × multiplier` when that is positive; everything else gives 1000. -/
def amended_effective_limit (limit : Option Int) (target : Option Nat)
    (multiplier : Int) : Int :=
  let fallback : Int := ((target.getD 0 : Nat) : Int) * multiplier
  match limit with
  | some l =>
    if 0 < l then l
    else if l = 0 then (if 0 < fallback then fallback else 1000) else 1000
  | none => if 0 < fallback then fallback else 1000

/-- Claim C5, refuted.  With no limit, `target = 100` and the default
multiplier 5, the claim's `max(target × multiplier, 1000)` gives 1000, but
the code sends `LIMIT 500` (the `max` with 1000 only applies when
`target × multiplier` is not positive). -/
theorem C5_counterexample :
    pool_limit_value none (some 100) 5 = 500 ∧
    claimed_effective_limit none (some 100) 5 = 1000 ∧
    pool_limit_value none (some 100) 5 ≠ claimed_effective_limit none (some 100) 5 := by
  decide

theorem pool_limit_value_pos (limit : Option Int) (target : Option Nat)
    (mult : Int) : 0 < pool_limit_value limit target mult := by
  unfold pool_limit_value
  rcases limit with _ | l <;> simp only <;> split_ifs <;> omega

instance {ε α : Type} [DecidableEq ε] [DecidableEq α] :
    DecidableEq (Except ε α) := fun a b =>
  match a, b with
  | .error x, .error y => decidable_of_iff (x = y) (by simp)
  | .ok x, .ok y => decidable_of_iff (x = y) (by simp)
  | .error _, .ok _ => isFalse (fun h => Except.noConfusion h)
  | .ok _, .error _ => isFalse (fun h => Except.noConfusion h)

theorem except_bind_ok {ε α β : Type} (a : α) (f : α → Except ε β) :
    ((Except.ok a : Except ε α) >>= f) = f a := rfl

theorem except_bind_error {ε α β : Type} (e : ε) (f : α → Except ε β) :
    ((Except.error e : Except ε α) >>= f) = Except.error e := rfl

theorem buildRows_length (ageBands : List Scalar) (today : Date) (p cid : Nat) :
    ∀ (rows : List BankRow) (created : List Sample),
      buildRows ageBands today p cid rows = .ok created →
      created.length = rows.length := by
  intro rows
  induction rows with
  | nil =>
    intro created h
    cases h
    rfl
  | cons r rest ih =>
    intro created h
    unfold buildRows at h
    cases hb : assignBand ageBands today r.dob with
    | error e => rw [hb] at h; exact absurd h (by simp)
    | ok band =>
      rw [hb] at h
      cases ht : buildRows ageBands today p cid rest with
      | error e => rw [ht] at h; exact absurd h (by simp)
      | ok tail =>
        rw [ht] at h
        cases h
        simp [ih tail ht]

/-- What a successful build decomposes into: the band ranges parsed, the
row loop succeeded on the query result, and the final count and insert. -/
theorem build_ok_elim (db : DB) (bank : List BankRow) (cell : Cell)
    (limit : Option Int) (mult : Int) (today : Date) (n : Nat) (db2 : DB)
    (h : build_sample_pool_for_cell db bank cell limit mult today = .ok (n, db2)) :
    ∃ br created,
      bandsToRanges (normalize_filter_values (selGet cell.selector "age_band")) = .ok br ∧
      buildRows (normalize_filter_values (selGet cell.selector "age_band")) today
        (cellProjectId db cell) cell.id
        (bankQueryRows db bank cell limit mult today br) = .ok created ∧
      (n, db2) = buildFinish db created := by
  unfold build_sample_pool_for_cell at h
  split at h
  · exact absurd h (by simp)
  · rename_i br hb2
    split at h
    · exact absurd h (by simp)
    · rename_i created hc2
      injection h with h2
      exact ⟨br, created, hb2, hc2, h2.symm⟩

/-- Claim C5, amended: the `LIMIT` the builder sends equals `limit` when a
positive limit is provided, else `target × multiplier` when positive, else
1000 (not `max(target × multiplier, 1000)`); and a successful build's
returned count — the pre-conflict number of rows attempted — is at most
that effective limit. -/
theorem C5_effective_limit (db : DB) (bank : List BankRow) (cell : Cell)
    (limit : Option Int) (mult : Int) (today : Date) (n : Nat) (db2 : DB)
    (h : build_sample_pool_for_cell db bank cell limit mult today = .ok (n, db2)) :
    pool_limit_value limit cell.target mult =
      amended_effective_limit limit cell.target mult ∧
    (n : Int) ≤ pool_limit_value limit cell.target mult := by
  constructor
  · unfold pool_limit_value amended_effective_limit
    rcases limit with _ | l <;> simp only <;> split_ifs <;> omega
  · obtain ⟨br, created, hb, hc, hfin⟩ := build_ok_elim db bank cell limit mult today n db2 h
    have hlen := buildRows_length _ _ _ _ _ _ hc
    have htake : created.length ≤ (pool_limit_value limit cell.target mult).toNat := by
      rw [hlen]
      unfold bankQueryRows
      exact (List.length_take _ _).le.trans (min_le_left _ _)
    have hpos := pool_limit_value_pos limit cell.target mult
    unfold buildFinish at hfin
    by_cases hemp : created.isEmpty
    · rw [if_pos hemp] at hfin
      cases hfin
      omega
    · rw [if_neg hemp] at hfin
      cases hfin
      omega

/-- Witness for C5 on a concrete successful build. -/
theorem C5_witness :
    pool_limit_value none (some 10) 5 = amended_effective_limit none (some 10) 5 ∧
    ((1 : Nat) : Int) ≤ pool_limit_value none (some 10) 5 := by
  have hb : build_sample_pool_for_cell
      { schemes := [{ id := 1, projectId := 1, status := .published,
                      overflowPolicy := .strict, priority := 0, isDefault := true,
                      publishedAt := some 0 }],
        cells := [], samples := [], assignments := [], interviews := [],
        dnc := [], nextAssignmentId := 1 }
      [{ phoneId := 1, msisdn := "0912", personId := 1, gender := some "m",
         dob := some ⟨1990, 1, 1⟩, provinceCode := some "01",
         cityCode := some "0101", isMobile := true, isActive := true }]
      { id := 1, schemeId := 1, selector := [], target := some 10,
        softCap := none, weight := 1, achieved := 0, inProgress := 0,
        reserved := 0 }
      none 5 ⟨2026, 10, 12⟩ =
      .ok (1,
        { schemes := [{ id := 1, projectId := 1, status := .published,
                        overflowPolicy := .strict, priority := 0, isDefault := true,
                        publishedAt := some 0 }],
          cells := [], assignments := [], interviews := [], dnc := [],
          nextAssignmentId := 1,
          samples := [{ id := 0, projectId := 1, cellId := some 1,
                        phoneId := some 1, personId := some 1,
                        phoneNumber := "0912", gender := some (.str "m"),
                        ageBand := none, provinceCode := some (.str "01"),
                        cityCode := some (.str "0101"), attributes := [],
                        isActive := true, status := .available,
                        attemptCount := 0, lastAttemptAt := none,
                        interviewerId := none, usedAt := none }] }) := by decide
  exact C5_effective_limit _ _ _ none 5 ⟨2026, 10, 12⟩ 1 _ hb

/-! ## Claim C6: validation in the bulk cell upsert -/

/-- The payload defects the view rejects with a `ValidationError`. -/
def badCellRow (r : CellRow) : Prop :=
  r.selector = [] ∨ r.target = .unset ∨ r.target = .bad ∨
    r.softCap = .bad ∨ r.weight = .bad

/-- A payload row with a well-formed selector but `target = -5` and
`weight = -1`. -/
def c6Row : CellRow :=
  { selector := [("gender", .scalar (.str "m"))], target := .val (-5),
    softCap := .unset, weight := .val (-1) }

/-- An empty store with one scheme. -/
def c6Db : DB :=
  { schemes := [{ id := 1, projectId := 1, status := .published,
                  overflowPolicy := .strict, priority := 0, isDefault := true,
                  publishedAt := some 0 }],
    cells := [], samples := [], assignments := [], interviews := [], dnc := [],
    nextAssignmentId := 1 }

/-- Claim C6, refuted.  A cell definition with non-positive target (−5)
and weight ≤ 0 (−1) is not rejected: the call returns no validation error
and persists a cell whose stored target is `0` — still non-positive —
(the weight being clamped to `0.0001`). -/
theorem C6_counterexample :
    (bulk_upsert_cells c6Db 1 [c6Row]).2 = none ∧
    ∃ c ∈ (bulk_upsert_cells c6Db 1 [c6Row]).1.cells, c.target = some 0 := by
  decide

theorem upsertCellRow_error_of_bad (db : DB) (sid f : Nat) (r : CellRow)
    (h : badCellRow r) : ∃ e, upsertCellRow db sid f r = .error e := by
  unfold upsertCellRow
  by_cases hsel : r.selector.isEmpty
  · rw [if_pos hsel]
    exact ⟨_, rfl⟩
  · rw [if_neg hsel]
    rcases h with h | h | h | h | h
    · exact absurd (by simp [h]) hsel
    · rw [h]
      exact ⟨_, rfl⟩
    · rw [h]
      exact ⟨_, rfl⟩
    · cases ht : r.target with
      | unset => exact ⟨_, rfl⟩
      | bad => exact ⟨_, rfl⟩
      | val t =>
        rw [h]
        exact ⟨_, rfl⟩
    · cases ht : r.target with
      | unset => exact ⟨_, rfl⟩
      | bad => exact ⟨_, rfl⟩
      | val t =>
        cases hsc : r.softCap with
        | bad => exact ⟨_, rfl⟩
        | unset =>
          rw [h]
          exact ⟨_, rfl⟩
        | val z =>
          rw [h]
          exact ⟨_, rfl⟩

theorem bulkUpsertGo_some_of_bad (sid : Nat) :
    ∀ (rows : List CellRow) (db : DB) (fresh : Nat),
      (∃ r ∈ rows, badCellRow r) → ((bulkUpsertGo sid db fresh rows).2).isSome := by
  intro rows
  induction rows with
  | nil =>
    rintro db fresh ⟨r, hr, _⟩
    cases hr
  | cons a rest ih =>
    rintro db fresh ⟨r, hr, hbad⟩
    unfold bulkUpsertGo
    cases hu : upsertCellRow db sid fresh a with
    | error e => rfl
    | ok db1 =>
      rcases List.mem_cons.mp hr with rfl | hr2
      · obtain ⟨e, he⟩ := upsertCellRow_error_of_bad db sid fresh r hbad
        rw [he] at hu
        cases hu
      · exact ih db1 (fresh + 1) ⟨r, hr2, hbad⟩

/-- The post-state of a successful single-row upsert: every cell is either
untouched or carries the clamped weight and a (nonnegative) target. -/
theorem upsertCellRow_cells (db : DB) (sid f : Nat) (r : CellRow) (db1 : DB)
    (h : upsertCellRow db sid f r = .ok db1) :
    ∀ c ∈ db1.cells,
      c ∈ db.cells ∨ ((1 : Rat) / 10000 ≤ c.weight ∧ ∃ t, c.target = some t) := by
  unfold upsertCellRow at h
  by_cases hsel : r.selector.isEmpty
  · rw [if_pos hsel] at h
    cases h
  · rw [if_neg hsel] at h
    cases ht : r.target with
    | unset => rw [ht] at h; cases h
    | bad => rw [ht] at h; cases h
    | val t =>
      rw [ht] at h
      cases hsc : r.softCap with
      | bad => rw [hsc] at h; cases h
      | unset =>
        rw [hsc] at h
        cases hw : r.weight with
        | bad => rw [hw] at h; cases h
        | unset =>
          rw [hw] at h
          cases hex : db.cells.any (fun c => c.schemeId = sid && c.selector = r.selector) <;>
            rw [hex] at h <;> cases h <;> intro c hc
          · rcases List.mem_append.mp hc with hc1 | hc1
            · exact Or.inl hc1
            · rcases List.mem_singleton.mp hc1 with rfl
              exact Or.inr ⟨by norm_num, _, rfl⟩
          · rcases List.mem_map.mp hc with ⟨c0, hc0, rfl⟩
            split
            · exact Or.inr ⟨by norm_num, _, rfl⟩
            · exact Or.inl hc0
        | val q =>
          rw [hw] at h
          cases hex : db.cells.any (fun c => c.schemeId = sid && c.selector = r.selector) <;>
            rw [hex] at h <;> cases h <;> intro c hc
          · rcases List.mem_append.mp hc with hc1 | hc1
            · exact Or.inl hc1
            · rcases List.mem_singleton.mp hc1 with rfl
              exact Or.inr ⟨le_max_right _ _, _, rfl⟩
          · rcases List.mem_map.mp hc with ⟨c0, hc0, rfl⟩
            split
            · exact Or.inr ⟨le_max_right _ _, _, rfl⟩
            · exact Or.inl hc0
      | val z =>
        rw [hsc] at h
        cases hw : r.weight with
        | bad => rw [hw] at h; cases h
        | unset =>
          rw [hw] at h
          cases hex : db.cells.any (fun c => c.schemeId = sid && c.selector = r.selector) <;>
            rw [hex] at h <;> cases h <;> intro c hc
          · rcases List.mem_append.mp hc with hc1 | hc1
            · exact Or.inl hc1
            · rcases List.mem_singleton.mp hc1 with rfl
              exact Or.inr ⟨by norm_num, _, rfl⟩
          · rcases List.mem_map.mp hc with ⟨c0, hc0, rfl⟩
            split
            · exact Or.inr ⟨by norm_num, _, rfl⟩
            · exact Or.inl hc0
        | val q =>
          rw [hw] at h
          cases hex : db.cells.any (fun c => c.schemeId = sid && c.selector = r.selector) <;>
            rw [hex] at h <;> cases h <;> intro c hc
          · rcases List.mem_append.mp hc with hc1 | hc1
            · exact Or.inl hc1
            · rcases List.mem_singleton.mp hc1 with rfl
              exact Or.inr ⟨le_max_right _ _, _, rfl⟩
          · rcases List.mem_map.mp hc with ⟨c0, hc0, rfl⟩
            split
            · exact Or.inr ⟨le_max_right _ _, _, rfl⟩
            · exact Or.inl hc0

theorem bulkUpsertGo_cells (sid : Nat) :
    ∀ (rows : List CellRow) (db : DB) (fresh : Nat),
      ∀ c ∈ (bulkUpsertGo sid db fresh rows).1.cells,
        c ∈ db.cells ∨ ((1 : Rat) / 10000 ≤ c.weight ∧ ∃ t, c.target = some t) := by
  intro rows
  induction rows with
  | nil =>
    intro db fresh c hc
    exact Or.inl hc
  | cons a rest ih =>
    intro db fresh c hc
    unfold bulkUpsertGo at hc
    cases hu : upsertCellRow db sid fresh a with
    | error e =>
      rw [hu] at hc
      exact Or.inl hc
    | ok db1 =>
      rw [hu] at hc
      rcases ih db1 (fresh + 1) c hc with hc1 | hc1
      · exact upsertCellRow_cells db sid fresh a db1 hu c hc1
      · exact Or.inr hc1

/-- Claim C6, amended: a missing or malformed selector and non-integer
`target`/`soft_cap`/`weight` fields are rejected; a non-positive target or
weight is not rejected but clamped (`target` to `max(target, 0)`, `weight`
to `max(weight, 0.0001)`), so every cell the call writes has weight at
least `0.0001 > 0` and a defined (nonnegative) target — but a cell with
`target = 0` can be persisted. -/
theorem C6_bulk_upsert_validation (db : DB) (schemeId : Nat) (rows : List CellRow) :
    ((∃ r ∈ rows, badCellRow r) → ((bulk_upsert_cells db schemeId rows).2).isSome) ∧
    (∀ c ∈ (bulk_upsert_cells db schemeId rows).1.cells,
      c ∈ db.cells ∨ ((1 : Rat) / 10000 ≤ c.weight ∧ ∃ t, c.target = some t)) :=
  ⟨bulkUpsertGo_some_of_bad schemeId rows db (freshCellId db),
   bulkUpsertGo_cells schemeId rows db (freshCellId db)⟩

/-- Witness for the amended C6: an empty-selector row is rejected. -/
theorem C6_witness :
    ((bulk_upsert_cells c6Db 1
        [{ selector := [], target := .val 3, softCap := .unset,
           weight := .unset }]).2).isSome :=
  (C6_bulk_upsert_validation c6Db 1 _).1
    ⟨_, List.mem_singleton.mpr rfl, Or.inl rfl⟩

/-! ## Claim C3: the actor-uniqueness guard and rollback on error -/

/-- When `claim_next` returns no sample, it leaves the store untouched. -/
theorem claim_next_none_state (db : DB) (p cid i : Nat) (now : Int) (db2 : DB)
    (h : claim_next db p cid i now = (none, db2)) : db2 = db := by
  unfold claim_next at h
  split at h
  · exact (congrArg Prod.snd h).symm
  · exact absurd (congrArg Prod.fst h) (by simp)

/-- The cell loop of `reserve_next` that falls through without claiming a
sample leaves the store exactly as it entered the loop. -/
theorem tryCells_none_state (scheme : Scheme) (p i : Nat) (now exp : Int) :
    ∀ (cs : List Cell) (db db2 : DB),
      tryCells db scheme p i now exp cs = (db2, none) → db2 = db := by
  intro cs
  induction cs with
  | nil =>
    intro db db2 h
    exact (congrArg Prod.fst h).symm
  | cons c rest ih =>
    intro db db2 h
    unfold tryCells at h
    cases hq : claim_next db p c.id i now with
    | mk opt db1 =>
      rw [hq] at h
      cases opt with
      | none =>
        rw [claim_next_none_state db p c.id i now db1 hq] at h
        exact ih db db2 h
      | some s =>
        exact absurd (congrArg Prod.snd h) (by simp)

/-- `pick_for_project` raises only the no-scheme `LookupError`. -/
theorem pick_for_project_error (db : DB) (p : Nat) (sid : Option Nat) (e : RErr)
    (h : pick_for_project db p sid = .error e) : e = .noScheme := by
  rcases sid with _ | s <;> simp only [pick_for_project] at h
  · split at h
    · cases h
    · split at h
      · cases h
      · injection h with h2
        exact h2.symm
  · split at h
    · injection h with h2
      exact h2.symm
    · cases h

/-- Inside the atomic block, `reserve_next` can raise `AlreadyReserved`,
`NoScheme` or `NoCapacity`, but never the no-sample error: that one is
raised only after the block commits. -/
theorem reserveNextBody_error (db : DB) (p i : Nat) (ttl : Int)
    (sid : Option Nat) (now : Int) (e : RErr)
    (h : reserveNextBody db p i ttl sid now = .error e) : e ≠ .noSample := by
  unfold reserveNextBody at h
  split at h
  · injection h with h2
    rw [← h2]
    decide
  · split at h
    · rename_i e2 hpick
      injection h with h2
      rw [← h2, pick_for_project_error (expire_overdue db p now) p sid e2 hpick]
      decide
    · split at h
      · injection h with h2
        rw [← h2]
        decide
      · cases h

/-- A store with a stale reservation (interviewer 7, expired at 100) on a
claimed sample whose phone number sits on the do-not-call list. -/
def c3SweepDb : DB :=
  { schemes := [{ id := 1, projectId := 1, status := .published,
                  overflowPolicy := .strict, priority := 0, isDefault := true,
                  publishedAt := some 0 }],
    cells := [{ id := 1, schemeId := 1, selector := [], target := some 5,
                softCap := none, weight := 1, achieved := 0, inProgress := 1,
                reserved := 1 }],
    samples := [{ id := 5, projectId := 1, cellId := some 1, phoneId := some 1,
                  personId := some 1, phoneNumber := "0912", gender := none,
                  ageBand := none, provinceCode := none, cityCode := none,
                  attributes := [], isActive := true, status := .claimed,
                  attemptCount := 1, lastAttemptAt := some 0,
                  interviewerId := some 7, usedAt := some 0 }],
    assignments := [{ id := 1, projectId := 1, schemeId := 1, cellId := 1,
                      interviewerId := 7, sampleId := 5, status := .reserved,
                      reservedAt := 0, expiresAt := 100, completedAt := none,
                      outcomeCode := none }],
    interviews := [{ assignmentId := 1, startForm := none, endForm := none,
                     status := .notStarted, outcomeCode := none }],
    dnc := ["0912"], nextAssignmentId := 2 }

/-- Counterexample to C3's universal-rollback conjunct: at `now = 200`,
interviewer 9's reservation attempt on `c3SweepDb` fails with the no-sample
error (the only pool sample's phone is on the do-not-call list), yet the
committed state is NOT the entry state — the in-transaction TTL sweep's
effects persist, because models.py raises this `LookupError` outside the
`transaction.atomic` block: assignment 1 is expired, cell 1's `in_progress`
counter has changed, and the final state is exactly the swept entry state. -/
theorem C3_counterexample :
    (reserve_next c3SweepDb 1 9 15 none 200).2 = .error .noSample ∧
    (reserve_next c3SweepDb 1 9 15 none 200).1 ≠ c3SweepDb ∧
    (reserve_next c3SweepDb 1 9 15 none 200).1.cells.map Cell.inProgress ≠
      c3SweepDb.cells.map Cell.inProgress ∧
    (reserve_next c3SweepDb 1 9 15 none 200).1 =
      expire_overdue c3SweepDb 1 200 := by
  decide

/-- Claim C3, amended: if, after the initial sweep of this project's overdue
reservations, the interviewer still holds a live reservation
(`status = reserved`, `expires_at > now`), `reserve_next` fails with
`AlreadyReserved`; a failure with any error OTHER than the no-sample
`LookupError` rolls the whole transaction back to the entry state (those
errors are raised inside the atomic block); but the no-sample error is
raised after the block commits, so the state it leaves behind is exactly
the entry state with the project's overdue reservations swept — the sweep's
counter, sample and assignment changes survive, and nothing else changes. -/
theorem C3_reserve_guards (db : DB) (p i : Nat) (ttl : Int) (sid : Option Nat)
    (now : Int) :
    (activeReservation (expire_overdue db p now) i now = true →
      reserve_next db p i ttl sid now = (db, .error .alreadyReserved)) ∧
    (∀ e, (reserve_next db p i ttl sid now).2 = .error e → e ≠ .noSample →
      (reserve_next db p i ttl sid now).1 = db) ∧
    ((reserve_next db p i ttl sid now).2 = .error .noSample →
      (reserve_next db p i ttl sid now).1 = expire_overdue db p now) := by
  refine ⟨?_, ?_, ?_⟩
  · intro h
    unfold reserve_next reserveNextBody
    rw [if_pos h]
  · intro e he hne
    unfold reserve_next at he ⊢
    cases hb : reserveNextBody db p i ttl sid now with
    | ok pr =>
      rw [hb] at he
      rcases pr with ⟨db1, r⟩
      cases r with
      | none =>
        exfalso
        apply hne
        have he2 : (Except.error RErr.noSample : Except RErr Assignment) =
            Except.error e := he
        injection he2 with h3
        exact h3.symm
      | some a =>
        exact absurd he (by simp)
    | error e2 =>
      rfl
  · intro he
    unfold reserve_next at he ⊢
    cases hb : reserveNextBody db p i ttl sid now with
    | ok pr =>
      rw [hb] at he
      rcases pr with ⟨db1, r⟩
      cases r with
      | none =>
        unfold reserveNextBody at hb
        split at hb
        · cases hb
        · split at hb
          · cases hb
          · split at hb
            · cases hb
            · injection hb with hb2
              exact tryCells_none_state _ p i now (now + ttl) _ _ _ hb2
      | some a =>
        exact absurd he (by simp)
    | error e2 =>
      rw [hb] at he
      have he2 : (Except.error e2 : Except RErr Assignment) =
          Except.error RErr.noSample := he
      exfalso
      apply reserveNextBody_error db p i ttl sid now e2 hb
      injection he2

/-- A store where interviewer 7 already holds a live reservation. -/
def c3Db : DB :=
  { schemes := [{ id := 1, projectId := 1, status := .published,
                  overflowPolicy := .strict, priority := 0, isDefault := true,
                  publishedAt := some 0 }],
    cells := [{ id := 1, schemeId := 1, selector := [], target := some 5,
                softCap := none, weight := 1, achieved := 0, inProgress := 1,
                reserved := 1 }],
    samples := [{ id := 5, projectId := 1, cellId := some 1, phoneId := some 1,
                  personId := some 1, phoneNumber := "0912", gender := none,
                  ageBand := none, provinceCode := none, cityCode := none,
                  attributes := [], isActive := true, status := .claimed,
                  attemptCount := 1, lastAttemptAt := some 0,
                  interviewerId := some 7, usedAt := some 0 }],
    assignments := [{ id := 1, projectId := 1, schemeId := 1, cellId := 1,
                      interviewerId := 7, sampleId := 5, status := .reserved,
                      reservedAt := 0, expiresAt := 100, completedAt := none,
                      outcomeCode := none }],
    interviews := [{ assignmentId := 1, startForm := none, endForm := none,
                     status := .notStarted, outcomeCode := none }],
    dnc := [], nextAssignmentId := 2 }

/-- Witness for C3: the second reservation attempt for interviewer 7 fails
with `AlreadyReserved` and commits nothing. -/
theorem C3_witness :
    activeReservation (expire_overdue c3Db 1 10) 7 10 = true ∧
    reserve_next c3Db 1 7 15 none 10 = (c3Db, .error .alreadyReserved) :=
  ⟨by decide, (C3_reserve_guards c3Db 1 7 15 none 10).1 (by decide)⟩

/-! ## Claim C4: the `in_progress = reserved` pairing invariant -/

theorem paired_of_cells_eq {db1 db2 : DB} (h : db2.cells = db1.cells)
    (hp : Paired db1) : Paired db2 := by
  intro c hc
  exact hp c (h ▸ hc)

theorem paired_updateCellRows (db : DB) (pk : Nat) (f : Cell → Cell)
    (hf : ∀ c : Cell, c.inProgress = c.reserved →
      (f c).inProgress = (f c).reserved)
    (hp : Paired db) : Paired (updateCellRows db pk f) := by
  intro c hc
  rcases List.mem_map.mp hc with ⟨c0, hc0, rfl⟩
  split
  · exact hf c0 (hp c0 hc0)
  · exact hp c0 hc0

theorem paired_increment (db : DB) (pk : Nat) (hp : Paired db) :
    Paired (increment_in_progress db pk) :=
  paired_updateCellRows db pk _ (fun c h => by simp [h]) hp

theorem paired_decrement (db : DB) (pk : Nat) (completed : Bool) (hp : Paired db) :
    Paired (decrement_in_progress db pk completed) :=
  paired_updateCellRows db pk _ (fun c h => by simp [h]) hp

theorem paired_mark_completed (db : DB) (pk : Nat) (oc : Option String)
    (now : Int) (hp : Paired db) : Paired (mark_completed db pk oc now) := by
  unfold mark_completed
  cases h : findAssignment db pk with
  | none => exact hp
  | some a =>
    have hdb1 : Paired (if a.status = .reserved then
        decrement_in_progress db a.cellId true else db) := by
      split
      · exact paired_decrement db a.cellId true hp
      · exact hp
    exact paired_of_cells_eq
      (by simp [cells_interviewUpsertCompleted, cells_sample_mark_completed,
        cells_updateAssignmentRows]) hdb1

theorem paired_mark_failed (db : DB) (pk : Nat) (oc : Option String)
    (now : Int) (hp : Paired db) : Paired (mark_failed db pk oc now) := by
  unfold mark_failed
  cases h : findAssignment db pk with
  | none => exact hp
  | some a =>
    have hdb1 : Paired (if a.status = .reserved then
        decrement_in_progress db a.cellId false else db) := by
      split
      · exact paired_decrement db a.cellId false hp
      · exact hp
    exact paired_of_cells_eq
      (by simp [cells_interviewDelete, cells_sample_mark_available,
        cells_updateAssignmentRows]) hdb1

theorem paired_mark_cancelled (db : DB) (pk : Nat) (now : Int) (hp : Paired db) :
    Paired (mark_cancelled db pk now) := by
  unfold mark_cancelled
  cases h : findAssignment db pk with
  | none => exact hp
  | some a =>
    have hdb1 : Paired (if a.status = .reserved then
        decrement_in_progress db a.cellId false else db) := by
      split
      · exact paired_decrement db a.cellId false hp
      · exact hp
    exact paired_of_cells_eq
      (by simp [cells_interviewDelete, cells_sample_mark_available,
        cells_updateAssignmentRows]) hdb1

theorem paired_mark_expired (db : DB) (pk : Nat) (hp : Paired db) :
    Paired (mark_expired db pk) := by
  unfold mark_expired
  cases h : findAssignment db pk with
  | none => exact hp
  | some a =>
    have hdb1 : Paired (if a.status = .reserved then
        decrement_in_progress db a.cellId false else db) := by
      split
      · exact paired_decrement db a.cellId false hp
      · exact hp
    exact paired_of_cells_eq
      (by simp [cells_interviewDelete, cells_sample_mark_available,
        cells_updateAssignmentRows]) hdb1

theorem paired_expireTtlRow (db : DB) (a : Assignment) (hp : Paired db) :
    Paired (expireTtlRow db a) := by
  unfold expireTtlRow
  split
  · exact paired_of_cells_eq
      (by simp [cells_interviewDelete, cells_sample_mark_available,
        cells_updateAssignmentRows])
      (paired_decrement db a.cellId false hp)
  · exact hp

theorem paired_foldl_expire (rows : List Assignment) :
    ∀ db : DB, Paired db → Paired (rows.foldl expireTtlRow db) := by
  induction rows with
  | nil => intro db hp; exact hp
  | cons a rest ih => intro db hp; exact ih _ (paired_expireTtlRow db a hp)

theorem paired_expire_overdue (db : DB) (p : Nat) (now : Int) (hp : Paired db) :
    Paired (expire_overdue db p now) := by
  unfold expire_overdue
  exact paired_foldl_expire _ db hp

theorem paired_claim_next (db : DB) (p cid i : Nat) (now : Int) (hp : Paired db) :
    Paired (claim_next db p cid i now).2 :=
  paired_of_cells_eq (cells_claim_next db p cid i now) hp

theorem cells_createAssignment (db : DB) (a : Assignment) :
    (createAssignment db a).cells = db.cells := by
  unfold createAssignment ensureInterview
  split <;> rfl

theorem paired_tryCells (scheme : Scheme) (p i : Nat) (now exp : Int) :
    ∀ (cs : List Cell) (db : DB), Paired db →
      Paired (tryCells db scheme p i now exp cs).1 := by
  intro cs
  induction cs with
  | nil =>
    intro db hp
    exact hp
  | cons c rest ih =>
    intro db hp
    unfold tryCells
    cases hq : claim_next db p c.id i now with
    | mk opt db1 =>
      have hp1 : Paired db1 := by
        have h2 := paired_claim_next db p c.id i now hp
        rw [hq] at h2
        exact h2
      cases opt with
      | none => exact ih db1 hp1
      | some s =>
        exact paired_increment _ c.id
          (paired_of_cells_eq (cells_createAssignment db1 _) hp1)

theorem paired_reserveNextBody (db : DB) (p i : Nat) (ttl : Int)
    (sid : Option Nat) (now : Int) (pr : DB × Option Assignment)
    (hp : Paired db)
    (h : reserveNextBody db p i ttl sid now = .ok pr) : Paired pr.1 := by
  unfold reserveNextBody at h
  split at h
  · cases h
  · split at h
    · cases h
    · split at h
      · cases h
      · injection h with h2
        rw [← h2]
        exact paired_tryCells _ p i now (now + ttl) _ _
          (paired_expire_overdue db p now hp)

theorem paired_applyOp (db : DB) (op : CoreOp) (hp : Paired db) :
    Paired (applyOp db op) := by
  cases op with
  | reserve p i ttl sid now =>
    show Paired (reserve_next db p i ttl sid now).1
    unfold reserve_next
    cases hb : reserveNextBody db p i ttl sid now with
    | error e => exact hp
    | ok pr =>
      rcases pr with ⟨db2, r⟩
      cases r with
      | none =>
        exact paired_reserveNextBody db p i ttl sid now (db2, none) hp hb
      | some a =>
        exact paired_reserveNextBody db p i ttl sid now (db2, some a) hp hb
  | complete pk oc now => exact paired_mark_completed db pk oc now hp
  | failOp pk oc now => exact paired_mark_failed db pk oc now hp
  | cancel pk now => exact paired_mark_cancelled db pk now hp
  | expire pk => exact paired_mark_expired db pk hp
  | sweep p now => exact paired_expire_overdue db p now hp

/-- Claim C4: every counter mutation of the core operations moves
`in_progress` and `reserved` by the same delta, so a store in which every
cell satisfies `in_progress = reserved` keeps that equality through any
sequence of `ReserveNext` / `Complete` / `Fail` / `Cancel` / `Expire` /
`SweepExpired` operations. -/
theorem C4_counter_pairing (db : DB) (ops : List CoreOp) (hp : Paired db) :
    Paired (applyOps db ops) := by
  unfold applyOps
  induction ops generalizing db with
  | nil => exact hp
  | cons op rest ih => exact ih (applyOp db op) (paired_applyOp db op hp)

/-- Witness for C4 on a concrete store and operation sequence. -/
theorem C4_witness :
    Paired c3Db ∧
    Paired (applyOps c3Db
      [.sweep 1 200, .reserve 1 9 15 none 200, .complete 1 (some "COMP") 210]) :=
  ⟨by decide,
    C4_counter_pairing c3Db
      [.sweep 1 200, .reserve 1 9 15 none 200, .complete 1 (some "COMP") 210]
      (by decide)⟩

/-! ## Claim C7: candidate-cell ordering and the no-capacity error -/

/-- Claim C7: the candidate cells (those of the scheme with capacity) are
tried sorted by descending score — `weighted_score` under the weighted
policy, remaining slots (with `∞` for unlimited cells first) otherwise —
with ties broken by ascending cell id; the tried list is a permutation of
the candidates; and when no cell of the picked scheme has capacity the
call fails with `NoCapacity`, committing nothing. -/
theorem C7_cell_ranking (db : DB) (scheme : Scheme) (p i : Nat) (ttl : Int)
    (sid : Option Nat) (now : Int) :
    (rankedCandidates db scheme).Sorted (fun a b =>
      cellScore scheme.overflowPolicy b < cellScore scheme.overflowPolicy a ∨
        (cellScore scheme.overflowPolicy a = cellScore scheme.overflowPolicy b ∧
          a.id ≤ b.id)) ∧
    (rankedCandidates db scheme).Perm (candidateCells db scheme) ∧
    (∀ c : Cell, cellScore .weighted c = c.weighted_score .weighted) ∧
    (∀ c : Cell, cellScore .strict c =
      (match c.remaining_slots .strict with
       | none => (⊤ : WithTop Rat)
       | some r => ((r : Rat) : WithTop Rat))) ∧
    (activeReservation (expire_overdue db p now) i now = false →
      pick_for_project (expire_overdue db p now) p sid = .ok scheme →
      candidateCells (expire_overdue db p now) scheme = [] →
      reserve_next db p i ttl sid now = (db, .error .noCapacity)) := by
  refine ⟨?_, ?_, fun c => rfl, fun c => rfl, ?_⟩
  · exact List.sorted_insertionSort (cellLE scheme.overflowPolicy) _
  · exact List.perm_insertionSort (cellLE scheme.overflowPolicy) _
  · intro hact hpick hcand
    have hranked : rankedCandidates (expire_overdue db p now) scheme = [] := by
      unfold rankedCandidates
      rw [hcand]
      rfl
    have hbody : reserveNextBody db p i ttl sid now = .error .noCapacity := by
      unfold reserveNextBody
      rw [if_neg (by simp [hact]), hpick]
      show (if (rankedCandidates (expire_overdue db p now) scheme).isEmpty = true
          then (Except.error RErr.noCapacity :
            Except RErr (DB × Option Assignment))
          else .ok (tryCells (expire_overdue db p now) scheme p i now (now + ttl)
            (rankedCandidates (expire_overdue db p now) scheme))) =
        .error .noCapacity
      rw [hranked]
      rfl
    unfold reserve_next
    rw [hbody]

/-- A store whose only cell is already full. -/
def c7Db : DB :=
  { schemes := [{ id := 1, projectId := 1, status := .published,
                  overflowPolicy := .strict, priority := 0, isDefault := true,
                  publishedAt := some 0 }],
    cells := [{ id := 1, schemeId := 1, selector := [], target := some 1,
                softCap := none, weight := 1, achieved := 1, inProgress := 0,
                reserved := 0 }],
    samples := [], assignments := [], interviews := [], dnc := [],
    nextAssignmentId := 1 }

/-- The published scheme of `c7Db`. -/
def c7Scheme : Scheme :=
  { id := 1, projectId := 1, status := .published, overflowPolicy := .strict,
    priority := 0, isDefault := true, publishedAt := some 0 }

/-- Witness for C7: with the single cell full, reservation fails with
`NoCapacity` and commits nothing. -/
theorem C7_witness :
    reserve_next c7Db 1 7 15 none 0 = (c7Db, .error .noCapacity) :=
  ((C7_cell_ranking c7Db c7Scheme 1 7 15 none 0).2.2.2.2)
    (by decide) (by decide) (by decide)

/-! ## Claim C8: sample claiming -/

theorem sampleLE_refl (s : Sample) : sampleLE s s := Or.inr ⟨rfl, le_refl _⟩

/-- Claim C8: when `claim_next` returns a sample, it is an update of the
row that is minimal — under `last_attempt_at` ascending with nulls first,
then id ascending — among this project's and cell's `available`, active,
non-DNC samples; the update sets `claimed`, bumps `attempt_count`, stamps
`last_attempt_at` and `used_at` with `now` and records the interviewer;
the committed state is exactly that one-row update.  When no such row
exists the call returns `none` and leaves the state untouched.  In
particular a sample whose phone number is on the DNC list is never
claimed by this path. -/
theorem C8_claim_next (db : DB) (p cid i : Nat) (now : Int) :
    ((claim_next db p cid i now).1 = none →
      claimPool db p cid = [] ∧ (claim_next db p cid i now).2 = db) ∧
    (∀ s, (claim_next db p cid i now).1 = some s →
      ∃ s0, s0 ∈ claimPool db p cid ∧ s = claimUpdate i now s0 ∧
        (∀ t ∈ claimPool db p cid, sampleLE s0 t) ∧
        s0.projectId = p ∧ s0.cellId = some cid ∧
        s0.status = .available ∧ s0.isActive = true ∧
        db.dnc.contains s0.phoneNumber = false ∧
        s.status = .claimed ∧ s.attemptCount = s0.attemptCount + 1 ∧
        s.lastAttemptAt = some now ∧ s.usedAt = some now ∧
        s.interviewerId = some i ∧
        db.dnc.contains s.phoneNumber = false ∧
        (claim_next db p cid i now).2 =
          updateSampleRows db s0.id (claimUpdate i now)) := by
  unfold claim_next
  have hperm := List.perm_insertionSort sampleLE (claimPool db p cid)
  have hsorted := List.sorted_insertionSort sampleLE (claimPool db p cid)
  cases hs : (claimPool db p cid).insertionSort sampleLE with
  | nil =>
    rw [hs] at hperm
    constructor
    · intro _
      exact ⟨hperm.symm.eq_nil, rfl⟩
    · intro s hsome
      exact absurd hsome (by simp)
  | cons entry rest =>
    rw [hs] at hperm hsorted
    constructor
    · intro hnone
      exact absurd hnone (by simp)
    · intro s hsome
      have hseq : s = claimUpdate i now entry := by
        simpa using hsome.symm
      have hment : entry ∈ claimPool db p cid :=
        hperm.subset (List.mem_cons_self entry rest)
      have hmin : ∀ t ∈ claimPool db p cid, sampleLE entry t := by
        intro t ht
        rcases List.mem_cons.mp (hperm.symm.subset ht) with rfl | htr
        · exact sampleLE_refl t
        · exact List.rel_of_sorted_cons hsorted t htr
      have hpred := List.of_mem_filter hment
      simp only [Bool.and_eq_true, decide_eq_true_eq, Bool.not_eq_true'] at hpred
      obtain ⟨⟨⟨⟨hproj, hcell⟩, hstat⟩, hact⟩, hdnc⟩ := hpred
      refine ⟨entry, hment, hseq, hmin, hproj, hcell, hstat, hact, hdnc,
        ?_, ?_, ?_, ?_, ?_, ?_, rfl⟩ <;> rw [hseq]
      · rfl
      · rfl
      · rfl
      · rfl
      · rfl
      · exact hdnc

/-- A store with one available sample for C8's witness. -/
def c8Db : DB :=
  { schemes := [{ id := 1, projectId := 1, status := .published,
                  overflowPolicy := .strict, priority := 0, isDefault := true,
                  publishedAt := some 0 }],
    cells := [{ id := 1, schemeId := 1, selector := [], target := some 5,
                softCap := none, weight := 1, achieved := 0, inProgress := 0,
                reserved := 0 }],
    samples := [{ id := 5, projectId := 1, cellId := some 1, phoneId := some 1,
                  personId := some 1, phoneNumber := "0912", gender := none,
                  ageBand := none, provinceCode := none, cityCode := none,
                  attributes := [], isActive := true, status := .available,
                  attemptCount := 0, lastAttemptAt := none, interviewerId := none,
                  usedAt := none }],
    assignments := [], interviews := [], dnc := [], nextAssignmentId := 1 }

/-- The sample of `c8Db`. -/
def c8Sample : Sample :=
  { id := 5, projectId := 1, cellId := some 1, phoneId := some 1,
    personId := some 1, phoneNumber := "0912", gender := none, ageBand := none,
    provinceCode := none, cityCode := none, attributes := [], isActive := true,
    status := .available, attemptCount := 0, lastAttemptAt := none,
    interviewerId := none, usedAt := none }

/-- Witness for C8 at a concrete claim. -/
theorem C8_witness :
    ∃ s0, s0 ∈ claimPool c8Db 1 1 ∧ claimUpdate 7 3 c8Sample = claimUpdate 7 3 s0 ∧
      (∀ t ∈ claimPool c8Db 1 1, sampleLE s0 t) ∧
      s0.projectId = 1 ∧ s0.cellId = some 1 ∧
      s0.status = .available ∧ s0.isActive = true ∧
      c8Db.dnc.contains s0.phoneNumber = false ∧
      (claimUpdate 7 3 c8Sample).status = .claimed ∧
      (claimUpdate 7 3 c8Sample).attemptCount = s0.attemptCount + 1 ∧
      (claimUpdate 7 3 c8Sample).lastAttemptAt = some 3 ∧
      (claimUpdate 7 3 c8Sample).usedAt = some 3 ∧
      (claimUpdate 7 3 c8Sample).interviewerId = some 7 ∧
      c8Db.dnc.contains (claimUpdate 7 3 c8Sample).phoneNumber = false ∧
      (claim_next c8Db 1 1 7 3).2 =
        updateSampleRows c8Db s0.id (claimUpdate 7 3) :=
  (C8_claim_next c8Db 1 1 7 3).2 (claimUpdate 7 3 c8Sample) (by decide)

/-! ## Claim C10: eager interview creation at assignment creation -/

theorem interviews_increment (db : DB) (pk : Nat) :
    (increment_in_progress db pk).interviews = db.interviews := rfl

theorem interviews_expireTtlRow (db : DB) (a : Assignment) :
    ∀ iv ∈ (expireTtlRow db a).interviews, iv ∈ db.interviews := by
  unfold expireTtlRow
  split
  · intro iv hiv
    exact List.mem_of_mem_filter hiv
  · intro iv hiv
    exact hiv

theorem nextId_expireTtlRow (db : DB) (a : Assignment) :
    (expireTtlRow db a).nextAssignmentId = db.nextAssignmentId := by
  unfold expireTtlRow
  split <;> rfl

/-- Fresh-id invariant: every interview references an already-minted
assignment id.  The database's primary-key sequence guarantees it. -/
def FreshIds (db : DB) : Prop :=
  ∀ iv ∈ db.interviews, iv.assignmentId < db.nextAssignmentId

instance (db : DB) : Decidable (FreshIds db) := by
  unfold FreshIds
  infer_instance

theorem fresh_expireTtlRow (db : DB) (a : Assignment) (hf : FreshIds db) :
    FreshIds (expireTtlRow db a) := by
  intro iv hiv
  rw [nextId_expireTtlRow]
  exact hf iv (interviews_expireTtlRow db a iv hiv)

theorem fresh_foldl_expire (rows : List Assignment) :
    ∀ db : DB, FreshIds db → FreshIds (rows.foldl expireTtlRow db) := by
  induction rows with
  | nil => intro db hf; exact hf
  | cons a rest ih => intro db hf; exact ih _ (fresh_expireTtlRow db a hf)

theorem fresh_expire_overdue (db : DB) (p : Nat) (now : Int) (hf : FreshIds db) :
    FreshIds (expire_overdue db p now) := by
  unfold expire_overdue
  exact fresh_foldl_expire _ db hf

theorem tryCells_interview (scheme : Scheme) (p i : Nat) (now exp : Int) :
    ∀ (cs : List Cell) (db db2 : DB) (a : Assignment),
      FreshIds db → tryCells db scheme p i now exp cs = (db2, some a) →
      ∃ iv ∈ db2.interviews, iv.assignmentId = a.id ∧ iv.status = .notStarted ∧
        iv.startForm = none ∧ iv.endForm = none := by
  intro cs
  induction cs with
  | nil =>
    intro db db2 a hf h
    unfold tryCells at h
    exact absurd (congrArg Prod.snd h) (by simp)
  | cons c rest ih =>
    intro db db2 a hf h
    unfold tryCells at h
    cases hq : claim_next db p c.id i now with
    | mk opt db1 =>
      rw [hq] at h
      have hiv1 : db1.interviews = db.interviews := by
        have h1 := interviews_claim_next db p c.id i now
        rw [hq] at h1
        exact h1
      have hid1 : db1.nextAssignmentId = db.nextAssignmentId := by
        have h1 := nextId_claim_next db p c.id i now
        rw [hq] at h1
        exact h1
      have hf1 : FreshIds db1 := by
        intro iv hiv
        rw [hid1]
        exact hf iv (hiv1 ▸ hiv)
      cases opt with
      | none => exact ih db1 db2 a hf1 h
      | some s =>
        cases h
        have hany : (db1.interviews.any
            (fun iv => iv.assignmentId = db1.nextAssignmentId)) = false := by
          rw [List.any_eq_false]
          intro iv hiv
          simp only [decide_eq_true_eq]
          exact Nat.ne_of_lt (hf1 iv hiv)
        refine ⟨{ assignmentId := db1.nextAssignmentId, startForm := none,
                  endForm := none, status := .notStarted, outcomeCode := none },
          ?_, rfl, rfl, rfl, rfl⟩
        show _ ∈ (increment_in_progress (createAssignment db1 _) c.id).interviews
        rw [interviews_increment]
        unfold createAssignment ensureInterview
        rw [if_neg (by simp [hany])]
        exact List.mem_append_right _ (List.mem_singleton.mpr rfl)

/-- Claim C10: immediately after every successful `reserve_next`, the
committed state holds an interview row for the returned assignment with
status `not_started` and null `start_form` / `end_form` — creation is
eager, fired by the post-save hook at assignment creation, not deferred to
the first interview-start call. -/
theorem C10_interview_eager (db : DB) (p i : Nat) (ttl : Int) (sid : Option Nat)
    (now : Int) (db2 : DB) (a : Assignment) (hfresh : FreshIds db)
    (h : reserve_next db p i ttl sid now = (db2, .ok a)) :
    ∃ iv ∈ db2.interviews, iv.assignmentId = a.id ∧ iv.status = .notStarted ∧
      iv.startForm = none ∧ iv.endForm = none := by
  unfold reserve_next at h
  cases hb : reserveNextBody db p i ttl sid now with
  | error e =>
    rw [hb] at h
    exact absurd h (by simp)
  | ok pr =>
    rcases pr with ⟨db2x, r⟩
    rw [hb] at h
    cases r with
    | none =>
      exact absurd (congrArg Prod.snd h) (by simp)
    | some ax =>
      have h2 : db2x = db2 ∧ ax = a := by
        constructor
        · exact congrArg Prod.fst h
        · have := congrArg Prod.snd h
          simpa using this
      obtain ⟨rfl, rfl⟩ := h2
      unfold reserveNextBody at hb
      split at hb
      · cases hb
      · split at hb
        · cases hb
        · split at hb
          · cases hb
          · injection hb with hb2
            exact tryCells_interview _ p i now (now + ttl) _ _ _ _
              (fresh_expire_overdue db p now hfresh) hb2

/-- The assignment a first reservation on `c8Db` creates. -/
def c10Assignment : Assignment :=
  { id := 1, projectId := 1, schemeId := 1, cellId := 1, interviewerId := 7,
    sampleId := 5, status := .reserved, reservedAt := 0, expiresAt := 15,
    completedAt := none, outcomeCode := none }

/-- Witness for C10: the concrete reservation on `c8Db` creates the
interview eagerly. -/
theorem C10_witness :
    ∃ iv ∈ (reserve_next c8Db 1 7 15 none 0).1.interviews,
      iv.assignmentId = c10Assignment.id ∧ iv.status = .notStarted ∧
      iv.startForm = none ∧ iv.endForm = none :=
  C10_interview_eager c8Db 1 7 15 none 0 (reserve_next c8Db 1 7 15 none 0).1
    c10Assignment (by decide) (by decide)

/-! ## Claim C9: selector matching of built samples -/

/-- A cell whose selector keys off a non-promoted attribute. -/
def c9Cell : Cell :=
  { id := 1, schemeId := 1,
    selector := [("occupation", .scalar (.str "teacher"))],
    target := some 10, softCap := none, weight := 1, achieved := 0,
    inProgress := 0, reserved := 0 }

/-- A store holding only the scheme and `c9Cell`. -/
def c9Db : DB :=
  { schemes := [{ id := 1, projectId := 1, status := .published,
                  overflowPolicy := .strict, priority := 0, isDefault := true,
                  publishedAt := some 0 }],
    cells := [c9Cell], samples := [], assignments := [], interviews := [],
    dnc := [], nextAssignmentId := 1 }

/-- One active mobile bank row. -/
def c9Bank : List BankRow :=
  [{ phoneId := 1, msisdn := "0912", personId := 1, gender := some "m",
     dob := some ⟨1990, 1, 1⟩, provinceCode := some "01", cityCode := some "0101",
     isMobile := true, isActive := true }]

/-- Claim C9, refuted.  For the selector `{occupation: teacher}` — a key
the bank query ignores — the builder succeeds and creates one sample, but
that sample has empty `attributes`, so `matches_selector` is false for it:
not every built sample matches its cell's selector. -/
theorem C9_counterexample :
    (build_sample_pool_for_cell c9Db c9Bank c9Cell none 5 ⟨2026, 10, 12⟩).toOption.map
      (fun pr => (pr.1, pr.2.samples.length,
        pr.2.samples.all (fun s => !(s.matches_selector c9Cell.selector)))) =
      some (1, 1, true) := by
  decide

/-- The selector keys whose equality filters the bank query honors. -/
def promotedEqKey (k : String) : Bool :=
  k = "gender" || k = "province_code" || k = "city_code"

/-- A selector expectation that actually constrains the query: a non-null
scalar, or a list containing at least one non-null entry. -/
def goodSelVal : SelVal → Prop
  | .scalar v => v ≠ .null
  | .list vs => ∃ v ∈ vs, v ≠ Scalar.null

instance : DecidablePred goodSelVal
  | .scalar v => inferInstanceAs (Decidable (v ≠ Scalar.null))
  | .list vs => inferInstanceAs (Decidable (∃ x ∈ vs, x ≠ Scalar.null))

theorem selGet_none_of_absent (sel : Selector) (k : String)
    (hk : ∀ kv ∈ sel, kv.1 ≠ k) : selGet sel k = none := by
  unfold selGet
  rw [List.find?_eq_none.mpr]
  · rfl
  · intro kv hkv
    simp [hk kv hkv]

theorem selGet_of_mem_nodup :
    ∀ (sel : Selector) (k : String) (v : SelVal),
      (k, v) ∈ sel → (sel.map Prod.fst).Nodup → selGet sel k = some v := by
  intro sel
  induction sel with
  | nil =>
    intro k v h _
    cases h
  | cons kv rest ih =>
    intro k v h hnd
    rcases List.mem_cons.mp h with heq | h2
    · rw [← heq]
      unfold selGet
      rw [List.find?_cons_of_pos _ (by simp)]
      rfl
    · have hne : kv.1 ≠ k := by
        intro hkk
        have hmem : k ∈ rest.map Prod.fst :=
          List.mem_map.mpr ⟨(k, v), h2, rfl⟩
        exact (List.nodup_cons.mp hnd).1 (hkk ▸ hmem)
      unfold selGet at ih ⊢
      rw [List.find?_cons_of_neg _ (by simp [hne])]
      exact ih k v h2 (List.nodup_cons.mp hnd).2

theorem normalized_ne_nil (v : SelVal) (hv : goodSelVal v) :
    (normalize_filter_values (some v)).isEmpty = false := by
  cases v with
  | scalar w =>
    cases w <;> simp [normalize_filter_values, goodSelVal] at hv ⊢
  | list vs =>
    obtain ⟨w, hw, hwn⟩ := hv
    have hmem : w ∈ vs.filter (fun x => x ≠ Scalar.null) :=
      List.mem_filter.mpr ⟨hw, by simp [hwn]⟩
    show (vs.filter (fun x => x ≠ Scalar.null)).isEmpty = false
    exact List.isEmpty_eq_false.mpr (List.ne_nil_of_mem hmem)

theorem scalarMatches_of_mem_normalized (v : SelVal) (a : Scalar)
    (ha : a ∈ normalize_filter_values (some v)) : scalarMatches a v = true := by
  cases v with
  | scalar w =>
    cases w <;> simp [normalize_filter_values] at ha <;>
      simp [scalarMatches, ha]
  | list vs =>
    have hm : a ∈ vs := List.mem_of_mem_filter ha
    show vs.contains a = true
    rw [List.contains]
    exact List.elem_iff.mpr hm

theorem buildRows_mem (ageBands : List Scalar) (today : Date) (p cid : Nat) :
    ∀ (rows : List BankRow) (created : List Sample),
      buildRows ageBands today p cid rows = .ok created →
      ∀ s ∈ created, ∃ r band, r ∈ rows ∧
        assignBand ageBands today r.dob = .ok band ∧
        s = rowToSample p cid band r := by
  intro rows
  induction rows with
  | nil =>
    intro created h s hs
    cases h
    cases hs
  | cons r rest ih =>
    intro created h s hs
    unfold buildRows at h
    cases hb : assignBand ageBands today r.dob with
    | error e =>
      rw [hb] at h
      exact absurd h (by simp)
    | ok band =>
      rw [hb] at h
      cases ht : buildRows ageBands today p cid rest with
      | error e =>
        rw [ht] at h
        exact absurd h (by simp)
      | ok tail =>
        rw [ht] at h
        cases h
        rcases List.mem_cons.mp hs with rfl | hs2
        · exact ⟨r, band, List.mem_cons_self r rest, hb, rfl⟩
        · obtain ⟨r2, band2, hr2, hb2, hs3⟩ := ih tail ht s hs2
          exact ⟨r2, band2, List.mem_cons_of_mem r hr2, hb2, hs3⟩

theorem bulkCreate_mem :
    ∀ (created samples : List Sample) (s : Sample),
      s ∈ bulkCreateIgnoreConflicts samples created →
      s ∈ samples ∨ s ∈ created := by
  intro created
  induction created with
  | nil =>
    intro samples s h
    exact Or.inl h
  | cons c rest ih =>
    intro samples s h
    have h2 : s ∈ bulkCreateIgnoreConflicts
        (if conflictsPool samples c then samples else samples ++ [c]) rest := by
      unfold bulkCreateIgnoreConflicts at h ⊢
      simpa using h
    rcases ih _ s h2 with h3 | h3
    · split at h3
      · exact Or.inl h3
      · rcases List.mem_append.mp h3 with h4 | h4
        · exact Or.inl h4
        · exact Or.inr (List.mem_cons.mpr (Or.inl (List.mem_singleton.mp h4)))
    · exact Or.inr (List.mem_cons_of_mem c h3)

theorem mem_bankQueryRows (db : DB) (bank : List BankRow) (cell : Cell)
    (limit : Option Int) (mult : Int) (today : Date) (br : List (Int × Int)) :
    ∀ r ∈ bankQueryRows db bank cell limit mult today br,
      bankRowPasses db.dnc
        ((db.samples.filter (fun s => s.projectId = cellProjectId db cell)).map
          (fun s => s.phoneNumber))
        (normalize_filter_values (selGet cell.selector "gender"))
        (normalize_filter_values (selGet cell.selector "province_code"))
        (normalize_filter_values (selGet cell.selector "city_code"))
        (explicitAgeRanges (normalize_filter_values
          (if selValTruthy (selGet cell.selector "age") then
            selGet cell.selector "age"
           else selGet cell.selector "age_range")) ++ br)
        today r = true := by
  intro r hr
  have hr2 := List.mem_of_mem_take hr
  have hr3 := (List.perm_insertionSort (fun a b : BankRow => a.phoneId ≤ b.phoneId) _).subset hr2
  exact List.of_mem_filter hr3

theorem rowToSample_attr_gender (p cid : Nat) (band : Option String) (r : BankRow) :
    (rowToSample p cid band r).attrValue "gender" = r.gender.map Scalar.str := rfl

theorem rowToSample_attr_province (p cid : Nat) (band : Option String) (r : BankRow) :
    (rowToSample p cid band r).attrValue "province_code" =
      r.provinceCode.map Scalar.str := rfl

theorem rowToSample_attr_city (p cid : Nat) (band : Option String) (r : BankRow) :
    (rowToSample p cid band r).attrValue "city_code" =
      r.cityCode.map Scalar.str := rfl

theorem matches_selector_of_forall (s : Sample) (sel : Selector)
    (h : ∀ kv ∈ sel, ∃ a, s.attrValue kv.1 = some a ∧ scalarMatches a kv.2 = true) :
    s.matches_selector sel = true := by
  unfold Sample.matches_selector
  rw [List.all_eq_true]
  intro kv hkv
  obtain ⟨a, ha, hm⟩ := h kv hkv
  simp only [ha, hm]

theorem anyMatch_elim (vs : List Scalar) (g : Option String)
    (h : anyMatchStr vs g = true) :
    ∃ s, g = some s ∧ Scalar.str s ∈ vs := by
  cases hg : g with
  | none =>
    rw [hg] at h
    exact absurd h (by simp [anyMatchStr])
  | some s =>
    rw [hg] at h
    have h2 : vs.contains (Scalar.str s) = true := h
    rw [List.contains] at h2
    exact ⟨s, rfl, List.elem_iff.mp h2⟩

/-- Claim C9, amended: a built sample matches its cell's selector whenever
the selector constrains only the promoted equality keys: if every selector
key is one of `gender` / `province_code` / `city_code` (keys distinct,
each expectation a non-null scalar or a list with a non-null entry), then
every sample in the post-build state either pre-existed or satisfies
`matches_selector(cell.selector)`.  Selectors with any other key — `age`,
`age_band`, or an arbitrary attribute key — carry no such guarantee,
because created rows have empty `attributes`. -/
theorem C9_selector_matching (db : DB) (bank : List BankRow) (cell : Cell)
    (limit : Option Int) (mult : Int) (today : Date) (n : Nat) (db2 : DB)
    (hkeys : ∀ kv ∈ cell.selector, promotedEqKey kv.1 = true ∧ goodSelVal kv.2)
    (hnodup : (cell.selector.map Prod.fst).Nodup)
    (h : build_sample_pool_for_cell db bank cell limit mult today = .ok (n, db2)) :
    ∀ s ∈ db2.samples, s ∈ db.samples ∨ s.matches_selector cell.selector = true := by
  obtain ⟨br, created, hb, hc, hfin⟩ :=
    build_ok_elim db bank cell limit mult today n db2 h
  have hnb : selGet cell.selector "age_band" = none := by
    apply selGet_none_of_absent
    intro kv hkv hk
    have h1 := (hkeys kv hkv).1
    rw [hk] at h1
    exact absurd h1 (by decide)
  rw [hnb] at hc
  have hmatch : ∀ s ∈ created, s.matches_selector cell.selector = true := by
    intro s hs
    obtain ⟨r, band, hr, hband, rfl⟩ := buildRows_mem _ _ _ _ _ _ hc s hs
    have hba : assignBand (normalize_filter_values none) today r.dob = .ok none := rfl
    rw [hba] at hband
    injection hband with hbv
    subst hbv
    have hpass := mem_bankQueryRows db bank cell limit mult today br r hr
    simp only [bankRowPasses, Bool.and_eq_true] at hpass
    obtain ⟨⟨⟨⟨⟨⟨⟨hactive, hmobile⟩, hdncr⟩, hgen⟩, hprov⟩, hcity⟩, hage⟩, hpool⟩ :=
      hpass
    apply matches_selector_of_forall
    intro kv hkv
    obtain ⟨k, v⟩ := kv
    have hgood := (hkeys (k, v) hkv).2
    have h1 := (hkeys (k, v) hkv).1
    simp only [promotedEqKey, Bool.or_eq_true, decide_eq_true_eq] at h1
    rcases h1 with (hk | hk) | hk
    · subst hk
      have hsel := selGet_of_mem_nodup cell.selector "gender" v hkv hnodup
      rw [hsel, normalized_ne_nil v hgood, Bool.false_or] at hgen
      obtain ⟨g, hrg, hmem2⟩ := anyMatch_elim _ _ hgen
      refine ⟨Scalar.str g, ?_, scalarMatches_of_mem_normalized v _ hmem2⟩
      rw [rowToSample_attr_gender, hrg]
      rfl
    · subst hk
      have hsel := selGet_of_mem_nodup cell.selector "province_code" v hkv hnodup
      rw [hsel, normalized_ne_nil v hgood, Bool.false_or] at hprov
      obtain ⟨g, hrg, hmem2⟩ := anyMatch_elim _ _ hprov
      refine ⟨Scalar.str g, ?_, scalarMatches_of_mem_normalized v _ hmem2⟩
      rw [rowToSample_attr_province, hrg]
      rfl
    · subst hk
      have hsel := selGet_of_mem_nodup cell.selector "city_code" v hkv hnodup
      rw [hsel, normalized_ne_nil v hgood, Bool.false_or] at hcity
      obtain ⟨g, hrg, hmem2⟩ := anyMatch_elim _ _ hcity
      refine ⟨Scalar.str g, ?_, scalarMatches_of_mem_normalized v _ hmem2⟩
      rw [rowToSample_attr_city, hrg]
      rfl
  unfold buildFinish at hfin
  split at hfin
  · injection hfin with h1 h2
    subst h2
    intro s hs
    exact Or.inl hs
  · injection hfin with h1 h2
    subst h2
    intro s hs
    rcases bulkCreate_mem created db.samples s hs with h3 | h3
    · exact Or.inl h3
    · exact Or.inr (hmatch s h3)

/-- A cell selecting on gender only, for C9's witness. -/
def c9GoodCell : Cell :=
  { id := 1, schemeId := 1, selector := [("gender", .scalar (.str "m"))],
    target := some 10, softCap := none, weight := 1, achieved := 0,
    inProgress := 0, reserved := 0 }

/-- The store for the witness build. -/
def c9GoodDb : DB :=
  { schemes := [{ id := 1, projectId := 1, status := .published,
                  overflowPolicy := .strict, priority := 0, isDefault := true,
                  publishedAt := some 0 }],
    cells := [c9GoodCell], samples := [], assignments := [], interviews := [],
    dnc := [], nextAssignmentId := 1 }

/-- The sample the witness build creates. -/
def c9BuiltSample : Sample :=
  { id := 0, projectId := 1, cellId := some 1, phoneId := some 1,
    personId := some 1, phoneNumber := "0912", gender := some (.str "m"),
    ageBand := none, provinceCode := some (.str "01"),
    cityCode := some (.str "0101"), attributes := [], isActive := true,
    status := .available, attemptCount := 0, lastAttemptAt := none,
    interviewerId := none, usedAt := none }

/-- The state after the witness build. -/
def c9BuiltDb : DB :=
  { schemes := [{ id := 1, projectId := 1, status := .published,
                  overflowPolicy := .strict, priority := 0, isDefault := true,
                  publishedAt := some 0 }],
    cells := [c9GoodCell], samples := [c9BuiltSample], assignments := [],
    interviews := [], dnc := [], nextAssignmentId := 1 }

/-- Witness for the amended C9 at a concrete gender-selector build. -/
theorem C9_witness :
    c9BuiltSample ∈ c9GoodDb.samples ∨
      c9BuiltSample.matches_selector c9GoodCell.selector = true := by
  have hb : build_sample_pool_for_cell c9GoodDb c9Bank c9GoodCell none 5
      ⟨2026, 10, 12⟩ = .ok (1, c9BuiltDb) := by decide
  exact C9_selector_matching c9GoodDb c9Bank c9GoodCell none 5 ⟨2026, 10, 12⟩ 1
    c9BuiltDb (by decide) (by decide) hb c9BuiltSample (by decide)

end Insightzen
